import Mathlib

/-!
Shallow embedding of `src/python/workflow_gallery_scraper.py`.

The scraper's core is `scrape_workflow`: a multi-strategy extraction pipeline
over a fetched HTML page, followed by normalization of the extracted workflow
payload and assembly of the output record, with a synthetic fallback generator
(`generate_synthetic_workflow`).  We embed the Python values flowing through
the program as `JValue` (JSON-like data: everything the program manipulates is
either decoded JSON or dict/list literals it builds itself), model fallible
Python operations in `Except String` (an `.error` is a raised exception), and
model the page at the BeautifulSoup abstraction level used by the code: the
list of script tags (with their `type` attribute and `.string` content), the
title text, and the meta-tag values the code reads.  The `random` and `uuid`
modules are modelled by entropy streams `Nat → Nat` passed as parameters;
`datetime.now().isoformat()` is a string parameter.
-/

namespace GalleryScraper

/-- JSON-like values: the shallow embedding of the Python values flowing
through the scraper.  Python dicts are insertion-ordered association lists
with string keys (the program only ever uses string keys, and JSON object
keys are strings). -/
inductive JValue where
  | null : JValue
  | bool : Bool → JValue
  | int : Int → JValue
  | str : String → JValue
  | list : List JValue → JValue
  | dict : List (String × JValue) → JValue

/-- First value bound to a key in an insertion-ordered dict. -/
def lookupKV : List (String × JValue) → String → Option JValue
  | [], _ => none
  | (k, v) :: rest, key => if k = key then some v else lookupKV rest key

/-- Python `d[key] = v`: replace in place if the key exists, else append. -/
def setKV : List (String × JValue) → String → JValue → List (String × JValue)
  | [], key, v => [(key, v)]
  | (k, w) :: rest, key, v =>
    if k = key then (k, v) :: rest else (k, w) :: setKV rest key v

/-- Python `d.setdefault(key, v)` (return value unused by the program):
leave the dict unchanged when the key is present, else append. -/
def setdefaultKV (d : List (String × JValue)) (key : String) (v : JValue) :
    List (String × JValue) :=
  match lookupKV d key with
  | some _ => d
  | none => d ++ [(key, v)]

/-- `d.get(key, dflt)` on a dict known to be a dict. -/
def lookupD (d : List (String × JValue)) (key : String) (dflt : JValue) : JValue :=
  match lookupKV d key with
  | some v => v
  | none => dflt

/-- Python truthiness of the embedded values (`if not workflow_data`,
`if script.string`, `any(...)`). -/
def pyTruthy : JValue → Bool
  | .null => false
  | .bool b => b
  | .int n => n != 0
  | .str s => !(s == "")
  | .list xs => !xs.isEmpty
  | .dict d => !d.isEmpty

/-- `dropLead pat cs`: the rest of `cs` after a leading copy of `pat`. -/
def dropLead : List Char → List Char → Option (List Char)
  | [], cs => some cs
  | _, [] => none
  | p :: ps, c :: cs => if c = p then dropLead ps cs else none

/-- Substring containment on char lists (Python `pat in s`). -/
def listHasSub (pat : List Char) : List Char → Bool
  | [] => (dropLead pat []).isSome
  | c :: rest => (dropLead pat (c :: rest)).isSome || listHasSub pat rest

/-- Python substring test `pat in s`. -/
def strContains (s pat : String) : Bool := listHasSub pat.data s.data

/-- Whether an embedded value is the string `key` (Python `==` between a
string and an arbitrary value: true only for an equal string). -/
def isStrVal (x : JValue) (key : String) : Bool :=
  match x with
  | .str s => s == key
  | _ => false

/-- Python `key in v` for a string key: key test on dicts, substring test on
strings, membership on lists; `in` on `None`/bool/int raises `TypeError`. -/
def pyInE (key : String) (v : JValue) : Except String Bool :=
  match v with
  | .dict d => .ok (lookupKV d key).isSome
  | .str s => .ok (strContains s key)
  | .list xs => .ok (xs.any (fun x => isStrVal x key))
  | _ => .error "TypeError: argument not iterable"

/-- Python `v[key]` for a string key. -/
def pyGetItem (v : JValue) (key : String) : Except String JValue :=
  match v with
  | .dict d =>
    match lookupKV d key with
    | some x => .ok x
    | none => .error "KeyError"
  | .str _ => .error "TypeError: string indices must be integers"
  | .list _ => .error "TypeError: list indices must be integers"
  | _ => .error "TypeError: object is not subscriptable"

/-- Python `v.get(key, dflt)`: a dict method; raises `AttributeError` on
anything that is not a dict. -/
def pyGetD (v : JValue) (key : String) (dflt : JValue) : Except String JValue :=
  match v with
  | .dict d => .ok (lookupD d key dflt)
  | _ => .error "AttributeError: get"

/-- Python iteration `for x in v`: list elements, characters of a string
(as 1-character strings), keys of a dict; `None`/bool/int are not iterable. -/
def pyIterE : JValue → Except String (List JValue)
  | .list xs => .ok xs
  | .str s => .ok (s.data.map (fun c => JValue.str (String.mk [c])))
  | .dict d => .ok (d.map (fun kv => JValue.str kv.fst))
  | _ => .error "TypeError: object is not iterable"

/-- Python `len(v)`. -/
def pyLenE : JValue → Except String Nat
  | .str s => .ok s.length
  | .list xs => .ok xs.length
  | .dict d => .ok d.length
  | _ => .error "TypeError: object has no len"

/-- Python `v.values()`: a dict method. -/
def pyValuesE : JValue → Except String (List JValue)
  | .dict d => .ok (d.map Prod.snd)
  | _ => .error "AttributeError: values"

/-- Comma-separated join, as in Python container reprs. -/
def joinComma : List String → String
  | [] => ""
  | [x] => x
  | x :: rest => x ++ ", " ++ joinComma rest

mutual
/-- Python `repr` of the embedded values (used through `str` in f-strings for
non-string values); string quoting is modelled with single quotes. -/
def pyRepr : JValue → String
  | .null => "None"
  | .bool true => "True"
  | .bool false => "False"
  | .int n => toString n
  | .str s => "'" ++ s ++ "'"
  | .list xs => "[" ++ joinComma (pyReprList xs) ++ "]"
  | .dict kvs => "\x7b" ++ joinComma (pyReprKVs kvs) ++ "\x7d"

/-- `repr` of each element of a list. -/
def pyReprList : List JValue → List String
  | [] => []
  | v :: rest => pyRepr v :: pyReprList rest

/-- `repr` of each key/value pair of a dict. -/
def pyReprKVs : List (String × JValue) → List String
  | [] => []
  | (k, v) :: rest => ("'" ++ k ++ "': " ++ pyRepr v) :: pyReprKVs rest
end

/-- Python `str(v)` as used in f-string interpolation. -/
def pyStrF : JValue → String
  | .str s => s
  | v => pyRepr v

/-- Python whitespace class (`\s` in `re`, `str.strip`). -/
def pyWs (c : Char) : Bool :=
  c = ' ' || c = '\t' || c = '\n' || c = '\r' || c = '\x0b' || c = '\x0c'

/-- Strip Python whitespace from both ends of a char list (`str.strip()`). -/
def pyStrip (cs : List Char) : List Char :=
  ((cs.dropWhile pyWs).reverse.dropWhile pyWs).reverse

/-- Value of a nonempty all-digit char list. -/
def digitsVal (cs : List Char) : Option Nat :=
  if cs ≠ [] ∧ cs.all Char.isDigit then
    some (cs.foldl (fun acc c => acc * 10 + (c.toNat - 48)) 0)
  else none

/-- Python `int(s)`: strip whitespace, optional sign, decimal digits;
raises `ValueError` otherwise. -/
def pyIntOfString (s : String) : Except String Int :=
  let cs := pyStrip s.data
  match cs with
  | '-' :: rest =>
    match digitsVal rest with
    | some n => .ok (-(n : Int))
    | none => .error "ValueError: invalid literal for int"
  | '+' :: rest =>
    match digitsVal rest with
    | some n => .ok (n : Int)
    | none => .error "ValueError: invalid literal for int"
  | _ =>
    match digitsVal cs with
    | some n => .ok (n : Int)
    | none => .error "ValueError: invalid literal for int"

/-! ### `json.loads`

A fuel-based executable model of `json.loads`, covering the fragment the
program exchanges: null, booleans, integer numbers, strings with escapes,
arrays and objects.  Floating-point numbers are outside the model and are
reported as a parse failure.  Duplicate object keys follow Python dict
assignment (last value wins, first position kept). -/

/-- JSON whitespace accepted between tokens by `json.loads`. -/
def jsonWs (c : Char) : Bool := c = ' ' || c = '\t' || c = '\n' || c = '\r'

/-- Skip JSON whitespace. -/
def skipJsonWs : List Char → List Char
  | [] => []
  | c :: rest => if jsonWs c then skipJsonWs rest else c :: rest

/-- Value of a hex digit. -/
def hexVal (c : Char) : Option Nat :=
  if '0' ≤ c ∧ c ≤ '9' then some (c.toNat - 48)
  else if 'a' ≤ c ∧ c ≤ 'f' then some (c.toNat - 87)
  else if 'A' ≤ c ∧ c ≤ 'F' then some (c.toNat - 55)
  else none

/-- Single-character JSON string escapes. -/
def escChar (e : Char) : Option Char :=
  if e = '"' then some '"'
  else if e = '\\' then some '\\'
  else if e = '/' then some '/'
  else if e = 'b' then some '\x08'
  else if e = 'f' then some '\x0c'
  else if e = 'n' then some '\n'
  else if e = 'r' then some '\r'
  else if e = 't' then some '\t'
  else none

/-- Parse the body of a JSON string after the opening quote; returns the
decoded characters and the rest after the closing quote. -/
def parseStrBody : Nat → List Char → Except String (List Char × List Char)
  | 0, _ => .error "json: fuel exhausted"
  | _ + 1, [] => .error "json: unterminated string"
  | fu + 1, c :: rest =>
    if c = '"' then .ok ([], rest)
    else if c = '\\' then
      match rest with
      | [] => .error "json: bad escape"
      | e :: rest2 =>
        if e = 'u' then
          match rest2 with
          | a :: b :: c2 :: d :: rest3 =>
            match hexVal a, hexVal b, hexVal c2, hexVal d with
            | some ha, some hb, some hc, some hd =>
              match parseStrBody fu rest3 with
              | .ok (cs, r) =>
                .ok (Char.ofNat (((ha * 16 + hb) * 16 + hc) * 16 + hd) :: cs, r)
              | .error m => .error m
            | _, _, _, _ => .error "json: bad unicode escape"
          | _ => .error "json: bad unicode escape"
        else
          match escChar e with
          | some ec =>
            match parseStrBody fu rest2 with
            | .ok (cs, r) => .ok (ec :: cs, r)
            | .error m => .error m
          | none => .error "json: bad escape"
    else
      match parseStrBody fu rest with
      | .ok (cs, r) => .ok (c :: cs, r)
      | .error m => .error m

/-- Numeric value of a digit list. -/
def digitsToNat (ds : List Char) : Nat :=
  ds.foldl (fun a c => a * 10 + (c.toNat - 48)) 0

/-- Parse a JSON integer number (floats are outside the model). -/
def parseNum (cs : List Char) : Except String (JValue × List Char) :=
  match cs with
  | '-' :: rest => parsePos true rest
  | _ => parsePos false cs
where
  parsePos (neg : Bool) (cs : List Char) : Except String (JValue × List Char) :=
    let ds := cs.takeWhile Char.isDigit
    let r := cs.dropWhile Char.isDigit
    if ds.isEmpty then .error "json: bad number"
    else
      match r with
      | '.' :: _ => .error "json: float numbers are outside this model"
      | 'e' :: _ => .error "json: float numbers are outside this model"
      | 'E' :: _ => .error "json: float numbers are outside this model"
      | _ =>
        let n : Int := digitsToNat ds
        .ok (.int (if neg then -n else n), r)

mutual
/-- Parse one JSON value. -/
def parseVal : Nat → List Char → Except String (JValue × List Char)
  | 0, _ => .error "json: fuel exhausted"
  | fu + 1, cs0 =>
    match skipJsonWs cs0 with
    | [] => .error "json: expecting value"
    | c :: rest =>
      if c = 'n' then
        match dropLead ['u', 'l', 'l'] rest with
        | some r => .ok (.null, r)
        | none => .error "json: expecting value"
      else if c = 't' then
        match dropLead ['r', 'u', 'e'] rest with
        | some r => .ok (.bool true, r)
        | none => .error "json: expecting value"
      else if c = 'f' then
        match dropLead ['a', 'l', 's', 'e'] rest with
        | some r => .ok (.bool false, r)
        | none => .error "json: expecting value"
      else if c = '"' then
        match parseStrBody (fu + 1) rest with
        | .ok (body, r) => .ok (.str (String.mk body), r)
        | .error m => .error m
      else if c = '[' then
        match skipJsonWs rest with
        | ']' :: r => .ok (.list [], r)
        | cs1 =>
          match parseVal fu cs1 with
          | .error m => .error m
          | .ok (v, r) =>
            match parseArrTail fu r with
            | .error m => .error m
            | .ok (vs, rr) => .ok (.list (v :: vs), rr)
      else if c = '{' then
        match skipJsonWs rest with
        | '}' :: r => .ok (.dict [], r)
        | cs1 =>
          match parseMember fu cs1 with
          | .error m => .error m
          | .ok (k, v, r) =>
            match parseObjTail fu (setKV [] k v) r with
            | .error m => .error m
            | .ok (d, rr) => .ok (.dict d, rr)
      else if c = '-' || c.isDigit then parseNum (c :: rest)
      else .error "json: expecting value"

/-- After an array item: `, item ... ]` or `]`. -/
def parseArrTail : Nat → List Char → Except String (List JValue × List Char)
  | 0, _ => .error "json: fuel exhausted"
  | fu + 1, cs =>
    match skipJsonWs cs with
    | ']' :: rest => .ok ([], rest)
    | ',' :: r2 =>
      match parseVal fu r2 with
      | .error m => .error m
      | .ok (v, r) =>
        match parseArrTail fu r with
        | .error m => .error m
        | .ok (vs, rr) => .ok (v :: vs, rr)
    | _ => .error "json: expected comma or bracket"

/-- One `"key": value` object member. -/
def parseMember : Nat → List Char → Except String (String × JValue × List Char)
  | 0, _ => .error "json: fuel exhausted"
  | fu + 1, cs =>
    match skipJsonWs cs with
    | '"' :: rest =>
      match parseStrBody (fu + 1) rest with
      | .error m => .error m
      | .ok (kcs, r) =>
        match skipJsonWs r with
        | ':' :: r2 =>
          match parseVal fu r2 with
          | .error m => .error m
          | .ok (v, rr) => .ok (String.mk kcs, v, rr)
        | _ => .error "json: expected colon"
    | _ => .error "json: expecting property name"

/-- After an object member: `, member ... }` or `}`; members accumulate by
dict assignment, so a duplicate key keeps its first position with the last
value. -/
def parseObjTail : Nat → List (String × JValue) → List Char →
    Except String (List (String × JValue) × List Char)
  | 0, _, _ => .error "json: fuel exhausted"
  | fu + 1, acc, cs =>
    match skipJsonWs cs with
    | '}' :: rest => .ok (acc, rest)
    | ',' :: r2 =>
      match parseMember fu r2 with
      | .error m => .error m
      | .ok (k, v, rr) => parseObjTail fu (setKV acc k v) rr
    | _ => .error "json: expected comma or brace"
end

/-- `json.loads`: parse a complete JSON document (the whole string must be
consumed up to trailing whitespace). -/
def json_loads (s : String) : Except String JValue :=
  match parseVal (4 * s.length + 16) s.data with
  | .error m => .error m
  | .ok (v, rest) =>
    match skipJsonWs rest with
    | [] => .ok v
    | _ => .error "json: extra data"

/-- `json.loads` applied to an arbitrary embedded value: Python raises
`TypeError` unless the argument is a string. -/
def jsonLoadsV : JValue → Except String JValue
  | .str s => json_loads s
  | _ => .error "TypeError: the JSON object must be str"

/-! ### The two regular expressions

`re.search(r'window\.__VAR__\s*=\s*(\x7b.*?\x7d);', s, re.DOTALL)` is modelled
by `searchAssign`: leftmost occurrence of the literal variable name followed
by `\s* = \s*` and an opening brace, with the non-greedy group ending at the
first following `\x7d;`.  `re.search(r'(.+?)\s*\|\s*n8n', t)` is modelled by
`titleSearch`: leftmost start, shortest nonempty newline-free group followed
by `\s* | \s* n8n`. -/

/-- The non-greedy group tail: characters up to and including the first
closing brace that is immediately followed by a semicolon. -/
def braceTail : List Char → Option (List Char)
  | [] => none
  | '}' :: ';' :: _ => some ['}']
  | c :: rest =>
    match braceTail rest with
    | some g => some (c :: g)
    | none => none

/-- Try the assignment pattern at the current position; on success return the
captured group `{...}`. -/
def matchAssign (var : List Char) (cs : List Char) : Option (List Char) :=
  match dropLead var cs with
  | none => none
  | some r1 =>
    match r1.dropWhile pyWs with
    | '=' :: r3 =>
      match r3.dropWhile pyWs with
      | '{' :: r5 =>
        match braceTail r5 with
        | some g => some ('{' :: g)
        | none => none
      | _ => none
    | _ => none

/-- Leftmost match of the assignment pattern. -/
def searchAssign (var : List Char) : List Char → Option (List Char)
  | [] => matchAssign var []
  | c :: rest =>
    match matchAssign var (c :: rest) with
    | some g => some g
    | none => searchAssign var rest

/-- `re.search` for the embedded-state assignment of `var`, as a string. -/
def findBlob (var : String) (s : String) : Option String :=
  (searchAssign var.data s.data).map String.mk

/-- Skip some whitespace and then the literal (the literal starts with a
non-whitespace character, so greedy `\s*` with backtracking matches exactly
like this); returns the rest after the literal. -/
def wsSkipLit (lit : List Char) : List Char → Option (List Char)
  | [] => dropLead lit []
  | c :: rest =>
    match dropLead lit (c :: rest) with
    | some r => some r
    | none => if pyWs c then wsSkipLit lit rest else none

/-- After the title group: `\s* | \s* n8n`. -/
def titleTail (cs : List Char) : Bool :=
  match wsSkipLit ['|'] cs with
  | none => false
  | some r => (wsSkipLit ['n', '8', 'n'] r).isSome

/-- Shortest nonempty newline-free group at this start whose continuation
matches the title tail. -/
def titleGroup (acc : List Char) : List Char → Option (List Char)
  | [] => none
  | c :: rest =>
    if c = '\n' then none
    else if titleTail rest then some (acc ++ [c])
    else titleGroup (acc ++ [c]) rest

/-- Leftmost match of the title pattern; returns the captured group. -/
def titleSearch : List Char → Option (List Char)
  | [] => none
  | c :: rest =>
    match titleGroup [] (c :: rest) with
    | some g => some g
    | none => titleSearch rest

/-! ### `uuid.uuid4` and the entropy streams

`random.randint`, `random.choice` and `uuid.uuid4` are modelled by entropy
streams `Nat → Nat`: the page scrape draws uuid values at successive indices,
the generator draws its node count at index 0 and the node-type choices at
indices `i + 1`. -/

/-- Lower-case hex digit. -/
def hexChar (n : Nat) : Char :=
  if n < 10 then Char.ofNat (48 + n) else Char.ofNat (87 + n % 16)

/-- Big-endian hex digits of `x`, `k` nibbles wide. -/
def hexDigits (x k : Nat) : List Char :=
  (List.range k).map (fun i => hexChar (x / 16 ^ (k - 1 - i) % 16))

/-- `str(uuid.uuid4())` for 128 random bits `x`: the canonical
8-4-4-4-12 layout with the version nibble forced to 4 and the variant nibble
in 8..b. -/
def uuidStr (x : Nat) : String :=
  let r := x % 2 ^ 128
  String.mk
    (hexChar (r / 2 ^ 124 % 16) :: hexDigits (r / 2 ^ 96 % 2 ^ 28) 7 ++
      '-' :: hexDigits (r / 2 ^ 80 % 2 ^ 16) 4 ++
      '-' :: '4' :: hexDigits (r / 2 ^ 68 % 2 ^ 12) 3 ++
      '-' :: hexChar (8 + r / 2 ^ 62 % 4) :: hexDigits (r / 2 ^ 48 % 2 ^ 12) 3 ++
      '-' :: hexDigits (r % 2 ^ 48) 12)

/-! ### The page model

`BeautifulSoup(response.text, 'html.parser')` never raises on malformed
HTML; the code only reads the soup through the queries below, so the page is
modelled at that interface: all script tags in document order (with their
`type` attribute and `.string` content, which is absent when the tag has no
single string child), the title text, and the meta values. -/

/-- A script tag as seen by the code. -/
structure ScriptTag where
  typeAttr : Option String := none
  text : Option String := none

/-- The soup-level view of a fetched page. -/
structure Page where
  scripts : List ScriptTag := []
  titleText : Option String := none
  metaDescription : Option String := none
  articleTags : List String := []
  category : Option String := none

/-! ### The strategy cascade (lines 61-101)

Strategy 1 scans the scripts for a `window.__WORKFLOW__` assignment and
breaks on the first successful parse; a parse failure is caught locally and
the loop continues.  Strategy 2 runs only when the first left `workflow_data`
falsy; its loop has no outer `break`, so every matching script is processed
and a later success overwrites an earlier one.  Strategy 3 runs only when
`workflow_data` is still falsy and reads the first `application/ld+json`
script.  Every parse failure or missing key inside a strategy is caught by
the strategy's local `try`/`except` and leaves `workflow_data` unchanged. -/

/-- One script's strategy-1 attempt: the `window.__WORKFLOW__` branch of the
loop body; `none` both when the pattern does not match and when `json.loads`
raises (the local `except` swallows it). -/
def attempt1 (sc : ScriptTag) : Option JValue :=
  match sc.text with
  | none => none
  | some s =>
    if !(s == "") && strContains s "window.__WORKFLOW__" then
      match findBlob "window.__WORKFLOW__" s with
      | some g =>
        match json_loads g with
        | .ok v => some v
        | .error _ => none
      | none => none
    else none

/-- First entry of the `__NUXT__` `data` collection that is a dict with a
`workflow` key, and its `workflow` value. -/
def findWorkflowItem : List JValue → Option JValue
  | [] => none
  | x :: rest =>
    match x with
    | .dict d =>
      match lookupKV d "workflow" with
      | some w => some w
      | none => findWorkflowItem rest
    | _ => findWorkflowItem rest

/-- One script's strategy-2 attempt, threading the current `workflow_data`:
any exception inside the `try` leaves it unchanged. -/
def attempt2 (sc : ScriptTag) (wd : Option JValue) : Option JValue :=
  match sc.text with
  | none => wd
  | some s =>
    if !(s == "") && strContains s "window.__NUXT__" then
      match findBlob "window.__NUXT__" s with
      | none => wd
      | some g =>
        match json_loads g with
        | .error _ => wd
        | .ok nuxt =>
          match pyInE "data" nuxt with
          | .error _ => wd
          | .ok false => wd
          | .ok true =>
            match pyGetItem nuxt "data" with
            | .error _ => wd
            | .ok dataV =>
              match pyIterE dataV with
              | .error _ => wd
              | .ok items =>
                match findWorkflowItem items with
                | some w => some w
                | none => wd
    else wd

/-- Strategy 2: the whole script loop (no outer break, later matching
scripts overwrite). -/
def strat2fold (wd : Option JValue) : List ScriptTag → Option JValue
  | [] => wd
  | sc :: rest => strat2fold (attempt2 sc wd) rest

/-- Strategy 3: the first `application/ld+json` script, its `mainEntity.code`
parsed as a second layer of JSON; every failure is caught locally and leaves
`workflow_data` unchanged. -/
def strat3 (scripts : List ScriptTag) (wd : Option JValue) : Option JValue :=
  match scripts.find? (fun sc => sc.typeAttr == some "application/ld+json") with
  | none => wd
  | some sc =>
    match sc.text with
    | none => wd
    | some s =>
      if s == "" then wd
      else
        match json_loads s with
        | .error _ => wd
        | .ok ld =>
          match pyInE "mainEntity" ld with
          | .error _ => wd
          | .ok false => wd
          | .ok true =>
            match pyGetItem ld "mainEntity" with
            | .error _ => wd
            | .ok me =>
              match pyInE "code" me with
              | .error _ => wd
              | .ok false => wd
              | .ok true =>
                match pyGetItem me "code" with
                | .error _ => wd
                | .ok codeV =>
                  match jsonLoadsV codeV with
                  | .error _ => wd
                  | .ok w => some w

/-- Python truthiness of the optional `workflow_data` (unassigned = `None`). -/
def truthyOpt : Option JValue → Bool
  | none => false
  | some v => pyTruthy v

/-- The full strategy cascade: the value of `workflow_data` after lines
61-101; strategies 2 and 3 each run only when the value so far is falsy. -/
def selectWorkflowData (scripts : List ScriptTag) : Option JValue :=
  let w1 := scripts.findSome? attempt1
  let w2 := if truthyOpt w1 then w1 else strat2fold w1 scripts
  if truthyOpt w2 then w2 else strat3 scripts w2

/-! ### The synthetic generator (lines 209-255) -/

/-- The fixed node-type catalog. -/
def nodeTypes : List String :=
  ["Function", "IF", "Switch", "Set", "Email", "Slack", "HTTP",
   "Webhook", "Postgres", "MySQL", "MongoDB", "Redis", "S3"]

/-- Node `i` of the synthetic workflow (`n` is `int(workflow_id)`; the type
is `random.choice(node_types)`, drawn at stream index `i + 1`). -/
def synthNode (r : Nat → Nat) (n : Int) (i : Nat) : JValue :=
  let ty := nodeTypes.getD (r (i + 1) % nodeTypes.length) "Function"
  .dict [("id", .str ("node_" ++ toString i)),
         ("name", .str (ty ++ " " ++ toString (i + 1))),
         ("type", .str ty),
         ("parameters", .dict [("param1", .str ("value" ++ toString i)),
                               ("param2", .int n)]),
         ("position", .list [.int ((i : Int) * 200), .int (n * 100)])]

/-- Connection entry `i` of the linear chain: `node_i -> node_(i+1)`. -/
def synthConn (i : Nat) : String × JValue :=
  ("node_" ++ toString i,
   .list [.dict [("node", .str ("node_" ++ toString (i + 1))),
                 ("type", .str "main"),
                 ("index", .int 0)]])

/-- `generate_synthetic_workflow`: node count `random.randint(3, 6)` (stream
index 0), a linear connection chain, fixed settings; `int(workflow_id)`
raises `ValueError` for a non-numeric identifier, and nothing catches it
inside the generator. -/
def generate_synthetic_workflow (wid : String) (r : Nat → Nat) :
    Except String JValue :=
  match pyIntOfString wid with
  | .error e => .error e
  | .ok n =>
    let cnt := 3 + r 0 % 4
    .ok (.dict
      [("id", .str wid),
       ("name", .str ("Workflow " ++ wid)),
       ("nodes", .list ((List.range cnt).map (synthNode r n))),
       ("connections", .dict ((List.range (cnt - 1)).map synthConn)),
       ("active", .bool true),
       ("settings", .dict [("saveManualExecutions", .bool true),
                           ("callerPolicy", .str "any")])])

/-! ### Normalization (lines 138-174)

Node enhancement mutates each node in place: `setdefault` for id (a fresh
uuid4), name, type, parameters and position, then an unconditional
`node["metadata"] = {...}` rebuilt from the top-level fields.  Connection
enhancement REBUILDS each target entry from scratch, keeping only the six
canonical fields; extra input keys (including top-level `description` /
`condition`, which are folded into the metadata sub-object) are dropped. -/

/-- The default the code passes to `node.setdefault("name", ...)`: the
f-string `Node <id>` built after the id `setdefault` ran. -/
def defaultName (d1 : List (String × JValue)) : JValue :=
  .str ("Node " ++ pyStrF (lookupD d1 "id" (.str "unknown")))

/-- The four remaining `setdefault` calls of the node-enhancement loop body
(lines 142-145), applied after the id is in place. -/
def enhChain (d1 : List (String × JValue)) : List (String × JValue) :=
  setdefaultKV
    (setdefaultKV
      (setdefaultKV (setdefaultKV d1 "name" (defaultName d1))
        "type" (.str "unknown"))
      "parameters" (.dict []))
    "position" (.list [.int 0, .int 0])

/-- The `node["metadata"]` dict (lines 148-154), built from the
present-or-defaulted top-level fields; `nameV` is `node["name"]`. -/
def nodeMeta (d5 : List (String × JValue)) (nameV : JValue) : JValue :=
  .dict [("description", lookupD d5 "description" (.str "")),
         ("displayName", lookupD d5 "displayName" nameV),
         ("version", lookupD d5 "version" (.str "1.0")),
         ("isCustom", lookupD d5 "isCustom" (.bool false)),
         ("credentials", lookupD d5 "credentials" (.dict []))]

/-- Lines 142-154 on a node dict that already went through the id
`setdefault`: the remaining defaults, then the metadata assignment;
`node["name"]` raises `KeyError` when absent (it never is, see
`enhanceNodeDict_eq`). -/
def enhanceNodeDict (d1 : List (String × JValue)) : Option JValue :=
  match lookupKV (enhChain d1) "name" with
  | none => none
  | some nameV =>
    some (.dict (setKV (enhChain d1) "metadata" (nodeMeta (enhChain d1) nameV)))

/-- Enhancement of a single node (loop body of lines 139-154).  `u` is the
uuid entropy stream and `ctr` the index of the next draw:
`node.setdefault("id", str(uuid.uuid4()))` draws exactly when the id is
absent. -/
def enhanceNode (u : Nat → Nat) (ctr : Nat) (v : JValue) :
    Except String (JValue × Nat) :=
  match v with
  | .dict d0 =>
    match lookupKV d0 "id" with
    | some _ =>
      match enhanceNodeDict d0 with
      | some v2 => .ok (v2, ctr)
      | none => .error "KeyError: name"
    | none =>
      match enhanceNodeDict (d0 ++ [("id", JValue.str (uuidStr (u ctr)))]) with
      | some v2 => .ok (v2, ctr + 1)
      | none => .error "KeyError: name"
  | _ => .error "AttributeError: setdefault"

/-- Enhancement of a list of nodes, threading the uuid draw counter. -/
def enhanceNodeList (u : Nat → Nat) : Nat → List JValue →
    Except String (List JValue × Nat)
  | ctr, [] => .ok ([], ctr)
  | ctr, v :: rest =>
    match enhanceNode u ctr v with
    | .error e => .error e
    | .ok (v2, ctr2) =>
      match enhanceNodeList u ctr2 rest with
      | .error e => .error e
      | .ok (rest2, ctr3) => .ok (v2 :: rest2, ctr3)

/-- The `if "nodes" in workflow_data:` block.  Iterating a nonempty string
or dict reaches `setdefault` on a string key and raises; an empty iteration
leaves the payload untouched. -/
def nodesStep (u : Nat → Nat) (ctr : Nat) (wd : JValue) :
    Except String (JValue × Nat) :=
  match pyInE "nodes" wd with
  | .error e => .error e
  | .ok false => .ok (wd, ctr)
  | .ok true =>
    match pyGetItem wd "nodes" with
    | .error e => .error e
    | .ok nv =>
      match nv with
      | .list xs =>
        match enhanceNodeList u ctr xs with
        | .error e => .error e
        | .ok (xs2, ctr2) =>
          match wd with
          | .dict d => .ok (.dict (setKV d "nodes" (.list xs2)), ctr2)
          | _ => .error "TypeError: object is not subscriptable"
      | .str s => if s.isEmpty then .ok (wd, ctr)
                  else .error "AttributeError: setdefault"
      | .dict kvs => if kvs.isEmpty then .ok (wd, ctr)
                     else .error "AttributeError: setdefault"
      | _ => .error "TypeError: object is not iterable"

/-- The `enhanced_target` dict literal (lines 162-172), built with
`target.get` on a target dict. -/
def targOut (d : List (String × JValue)) : JValue :=
  .dict
    [("node", lookupD d "node" (.str "")),
     ("type", lookupD d "type" (.str "main")),
     ("index", lookupD d "index" (.int 0)),
     ("sourceOutput", lookupD d "sourceOutput" (.str "main")),
     ("targetInput", lookupD d "targetInput" (.str "main")),
     ("metadata", .dict
       [("description", lookupD d "description" (.str "")),
        ("condition", lookupD d "condition" JValue.null)])]

/-- Enhancement of a single connection target: rebuilt from scratch with the
six canonical fields; `target.get` raises on a non-dict target. -/
def enhanceTarget (t : JValue) : Except String JValue :=
  match t with
  | .dict d => .ok (targOut d)
  | _ => .error "AttributeError: get"

/-- Enhancement of one source's target list. -/
def enhanceTargetList : List JValue → Except String (List JValue)
  | [] => .ok []
  | t :: rest =>
    match enhanceTarget t with
    | .error e => .error e
    | .ok t2 =>
      match enhanceTargetList rest with
      | .error e => .error e
      | .ok rest2 => .ok (t2 :: rest2)

/-- The `enhanced_connections` rebuild, in source order. -/
def enhanceConnItems : List (String × JValue) →
    Except String (List (String × JValue))
  | [] => .ok []
  | (k, tv) :: rest =>
    match pyIterE tv with
    | .error e => .error e
    | .ok targets =>
      match enhanceTargetList targets with
      | .error e => .error e
      | .ok ts =>
        match enhanceConnItems rest with
        | .error e => .error e
        | .ok rest2 => .ok ((k, JValue.list ts) :: rest2)

/-- The `if "connections" in workflow_data:` block (lines 157-174). -/
def connStep (wd : JValue) : Except String JValue :=
  match pyInE "connections" wd with
  | .error e => .error e
  | .ok false => .ok wd
  | .ok true =>
    match pyGetItem wd "connections" with
    | .error e => .error e
    | .ok cv =>
      match cv with
      | .dict items =>
        match enhanceConnItems items with
        | .error e => .error e
        | .ok enhanced =>
          match wd with
          | .dict d => .ok (.dict (setKV d "connections" (.dict enhanced)))
          | _ => .error "TypeError: object is not subscriptable"
      | _ => .error "AttributeError: items"

/-- The whole normalization step: node enhancement then connection
enhancement. -/
def normalizeWd (u : Nat → Nat) (ctr : Nat) (wd : JValue) :
    Except String (JValue × Nat) :=
  match nodesStep u ctr wd with
  | .error e => .error e
  | .ok (wd1, ctr1) =>
    match connStep wd1 with
    | .error e => .error e
    | .ok wd2 => .ok (wd2, ctr1)

/-! ### Metadata scraping, fallback, and the output record (lines 103-207) -/

/-- Title extraction (lines 104-115): default `Workflow <id>`, replaced by
the stripped group when the title text matches `(.+?)\s*\|\s*n8n`. -/
def computeTitle (wid : String) (t : Option String) : String :=
  match t with
  | none => "Workflow " ++ wid
  | some tt =>
    match titleSearch tt.data with
    | some g => String.mk (pyStrip g)
    | none => "Workflow " ++ wid

/-- The fallback branch (lines 133-135): generate a synthetic payload and
assign the page title as its name (`workflow_data["name"] = title`). -/
def synthPayload (wid title : String) (r : Nat → Nat) : Except String JValue :=
  match generate_synthetic_workflow wid r with
  | .error e => .error e
  | .ok (.dict d) => .ok (.dict (setKV d "name" (.str title)))
  | .ok _ => .error "TypeError: object does not support item assignment"

/-- Lines 132-135: keep a truthy extracted payload, otherwise synthesize. -/
def obtainPayload (wid title : String) (r : Nat → Nat) (wd0 : Option JValue) :
    Except String JValue :=
  match wd0 with
  | some v => if pyTruthy v then .ok v else synthPayload wid title r
  | none => synthPayload wid title r

/-- `sum(len(c) for c in ...)`. -/
def sumLens : List JValue → Except String Nat
  | [] => .ok 0
  | v :: rest =>
    match pyLenE v with
    | .error e => .error e
    | .ok n =>
      match sumLens rest with
      | .error e => .error e
      | .ok m => .ok (n + m)

/-- `any(node.get("isCustom", False) for node in ...)`: short-circuits on
the first truthy value, raises on a non-dict element it reaches. -/
def anyCustom : List JValue → Except String Bool
  | [] => .ok false
  | v :: rest =>
    match v with
    | .dict d =>
      if pyTruthy (lookupD d "isCustom" (.bool false)) then .ok true
      else anyCustom rest
    | _ => .error "AttributeError: get"

/-- The output record literal (lines 177-200), with the Python evaluation
order of its fallible sub-expressions. -/
def buildResult (wid title desc cat : String) (tags : List String)
    (now : String) (wd : JValue) : Except String JValue :=
  let url := "https://n8n.io/workflows/" ++ wid
  match pyGetD wd "version" (.str "1.0") with
  | .error e => .error e
  | .ok version =>
    match pyGetD wd "createdAt" (.str now) with
    | .error e => .error e
    | .ok created =>
      match pyGetD wd "updatedAt" (.str now) with
      | .error e => .error e
      | .ok updated =>
        match pyGetD wd "settings" (.dict []) with
        | .error e => .error e
        | .ok settings =>
          match pyGetD wd "nodes" (.list []) with
          | .error e => .error e
          | .ok nodesV =>
            match pyLenE nodesV with
            | .error e => .error e
            | .ok ncount =>
              match pyGetD wd "connections" (.dict []) with
              | .error e => .error e
              | .ok connsV =>
                match pyValuesE connsV with
                | .error e => .error e
                | .ok cvals =>
                  match sumLens cvals with
                  | .error e => .error e
                  | .ok ccount =>
                    match pyGetD wd "nodes" (.list []) with
                    | .error e => .error e
                    | .ok nodesV2 =>
                      match pyIterE nodesV2 with
                      | .error e => .error e
                      | .ok nitems =>
                        match anyCustom nitems with
                        | .error e => .error e
                        | .ok hasC =>
                          .ok (.dict
                            [("id", .str wid),
                             ("name", .str title),
                             ("description", .str desc),
                             ("url", .str url),
                             ("workflow", wd),
                             ("metadata", .dict
                               [("url", .str url),
                                ("title", .str title),
                                ("description", .str desc),
                                ("category", .str cat),
                                ("tags", .list (tags.map JValue.str)),
                                ("version", version),
                                ("created", created),
                                ("updated", updated),
                                ("settings", settings),
                                ("stats", .dict
                                  [("nodeCount", .int (ncount : Int)),
                                   ("connectionCount", .int (ccount : Int)),
                                   ("hasCustomNodes", .bool hasC)]),
                                ("timestamp", .str now)])])

/-- The body of `scrape_workflow` from the point the page text is available
(the HTTP fetch is an external collaborator; a non-200 status returns `None`
before this body runs).  An `.error` is an exception reaching the outer
`try`. -/
def extractBody (wid : String) (page : Page) (now : String)
    (u r : Nat → Nat) : Except String JValue :=
  let wd0 := selectWorkflowData page.scripts
  let title := computeTitle wid page.titleText
  let desc := page.metaDescription.getD ""
  let cat := page.category.getD ""
  match obtainPayload wid title r wd0 with
  | .error e => .error e
  | .ok wd1 =>
    match normalizeWd u 0 wd1 with
    | .error e => .error e
    | .ok (wd2, _) => buildResult wid title desc cat page.articleTags now wd2

/-- `scrape_workflow` (lines 33-207): the outer `try`/`except` converts any
escaped exception into an absent result, so the function itself never
raises - the `Except` layer of the result is always `.ok`. -/
def scrape_workflow (wid : String) (page : Page) (now : String)
    (u r : Nat → Nat) : Except String (Option JValue) :=
  match extractBody wid page now u r with
  | .ok v => .ok (some v)
  | .error _ => .ok none

/-- The id field of an (embedded) node value, when the value is a dict. -/
def nodeId : JValue → Option JValue
  | .dict d => lookupKV d "id"
  | _ => none

/-- Two node values carry different ids whenever both ids are present. -/
def idsDiffer (a b : JValue) : Prop :=
  ∀ va vb, nodeId a = some va → nodeId b = some vb → va ≠ vb

/-- The value a node dict (with its id already in place) is left at by the
enhancement loop body: the remaining defaults plus the metadata assignment. -/
def enhOut (d1 : List (String × JValue)) : List (String × JValue) :=
  setKV (enhChain d1) "metadata"
    (nodeMeta (enhChain d1) (lookupD d1 "name" (defaultName d1)))

/-- Length of a list value; 0 otherwise (used to state the derived
connection count). -/
def listLenOrZero : JValue → Nat
  | .list l => l.length
  | _ => 0

/-- A payload value on which the `if "nodes" in ...` block acts as the
identity without drawing entropy: the shape every successful run leaves
behind. -/
def nodesFixed (v : JValue) : Prop :=
  match v with
  | .dict d =>
    match lookupKV d "nodes" with
    | none => True
    | some (.list xs) => ∀ u2 c2, enhanceNodeList u2 c2 xs = Except.ok (xs, c2)
    | some (.str s) => s.isEmpty = true
    | some (.dict kvs) => kvs.isEmpty = true
    | some _ => False
  | .str s => strContains s "nodes" = false
  | .list xs => (xs.any (fun x => isStrVal x "nodes")) = false
  | _ => False

/-- A payload value on which the `if "connections" in ...` block acts as the
identity. -/
def connFixed (v : JValue) : Prop :=
  match v with
  | .dict d =>
    match lookupKV d "connections" with
    | none => True
    | some (.dict cm) => enhanceConnItems cm = Except.ok cm
    | some _ => False
  | .str s => strContains s "connections" = false
  | .list xs => (xs.any (fun x => isStrVal x "connections")) = false
  | _ => False

/-- A page holding only the malformed blob of the resilience test: the text
`window.__WORKFLOW__ = {invalid json`. -/
def badBlobPage : Page :=
  { scripts := [⟨none, some "window.__WORKFLOW__ = \x7binvalid json"⟩] }

/-- A page whose title tag text carries no ` | n8n` suffix. -/
def plainTitlePage : Page := { titleText := some "Plain Title" }

/-- A page whose embedded blob has a single node with the non-boolean
`isCustom` value `"no"`. -/
def customFlagPage : Page :=
  { scripts := [⟨none,
      some "window.__WORKFLOW__ = \x7b\"nodes\": [\x7b\"isCustom\": \"no\"\x7d]\x7d;"⟩] }

/-- Scripts holding both a valid non-empty `window.__WORKFLOW__` blob and a
valid linked-data block. -/
def blobAndLdScripts : List ScriptTag :=
  [⟨none, some "window.__WORKFLOW__ = \x7b\"nodes\": []\x7d;"⟩,
   ⟨some "application/ld+json",
    some "\x7b\"mainEntity\": \x7b\"code\": \"\x7b\\\"x\\\": 1\x7d\"\x7d\x7d"⟩]

/-- Scripts holding a valid but EMPTY `window.__WORKFLOW__` blob and a valid
linked-data block. -/
def emptyBlobAndLdScripts : List ScriptTag :=
  [⟨none, some "window.__WORKFLOW__ = \x7b\x7d;"⟩,
   ⟨some "application/ld+json",
    some "\x7b\"mainEntity\": \x7b\"code\": \"\x7b\\\"x\\\": 1\x7d\"\x7d\x7d"⟩]

/-- Every connection target of the payload carries only default
`description`/`condition` top-level fields (the condition under which a
second normalization pass reproduces the connection metadata). -/
def targDefaults (v : JValue) : Prop :=
  ∀ d cm, v = JValue.dict d → lookupKV d "connections" = some (JValue.dict cm) →
    ∀ kv ∈ cm, ∀ ts, pyIterE kv.2 = Except.ok ts → ∀ td, JValue.dict td ∈ ts →
      lookupD td "description" (JValue.str "") = JValue.str "" ∧
      lookupD td "condition" JValue.null = JValue.null

/-! ## Association-list lemmas -/

theorem lookupKV_append (d e : List (String × JValue)) (k : String) :
    lookupKV (d ++ e) k =
      match lookupKV d k with
      | some v => some v
      | none => lookupKV e k := by
  induction d with
  | nil => simp [lookupKV]
  | cons p rest ih =>
    by_cases hk : p.1 = k
    · simp [lookupKV, hk]
    · simp [lookupKV, hk, ih]

theorem lookupKV_setKV_self (d : List (String × JValue)) (k : String) (v : JValue) :
    lookupKV (setKV d k v) k = some v := by
  induction d with
  | nil => simp [setKV, lookupKV]
  | cons p rest ih =>
    by_cases hk : p.1 = k
    · simp [setKV, lookupKV, hk]
    · simp [setKV, lookupKV, hk, ih]

theorem lookupKV_setKV_ne (d : List (String × JValue)) {k k' : String} (v : JValue)
    (h : k' ≠ k) : lookupKV (setKV d k' v) k = lookupKV d k := by
  induction d with
  | nil => simp [setKV, lookupKV, h]
  | cons p rest ih =>
    by_cases hk : p.1 = k'
    · simp [setKV, lookupKV, hk, h]
    · simp [setKV, lookupKV, hk, ih]

theorem setKV_eq_of_lookup {d : List (String × JValue)} {k : String} {v : JValue}
    (h : lookupKV d k = some v) : setKV d k v = d := by
  induction d with
  | nil => simp [lookupKV] at h
  | cons p rest ih =>
    by_cases hk : p.1 = k
    · obtain ⟨k1, v1⟩ := p
      simp only at hk
      subst hk
      simp [lookupKV] at h
      simp [setKV, h]
    · obtain ⟨k1, v1⟩ := p
      simp only at hk
      simp [lookupKV, hk] at h
      simp [setKV, hk, ih h]

theorem setdefaultKV_of_some {d : List (String × JValue)} {k : String} {w : JValue}
    (h : lookupKV d k = some w) (v : JValue) : setdefaultKV d k v = d := by
  simp [setdefaultKV, h]

theorem lookupKV_setdefault_self (d : List (String × JValue)) (k : String) (v : JValue) :
    lookupKV (setdefaultKV d k v) k = some (lookupD d k v) := by
  unfold setdefaultKV lookupD
  cases h : lookupKV d k with
  | some w => simp [h]
  | none => simp [lookupKV_append, h, lookupKV]

theorem lookupKV_setdefault_ne (d : List (String × JValue)) {k k' : String} (v : JValue)
    (h : k' ≠ k) : lookupKV (setdefaultKV d k' v) k = lookupKV d k := by
  unfold setdefaultKV
  cases h' : lookupKV d k' with
  | some w => rfl
  | none =>
    simp only [lookupKV_append, lookupKV, h]
    cases lookupKV d k <;> rfl

theorem lookupKV_setdefault_of_some {d : List (String × JValue)} {k : String} {w : JValue}
    (h : lookupKV d k = some w) (k' : String) (v : JValue) :
    lookupKV (setdefaultKV d k' v) k = some w := by
  by_cases hk : k' = k
  · subst hk
    rw [setdefaultKV_of_some h, h]
  · rw [lookupKV_setdefault_ne d v hk, h]

/-! ## Node-enhancement lemmas -/

theorem lookupKV_enhChain_of_some {d1 : List (String × JValue)} {k : String} {w : JValue}
    (h : lookupKV d1 k = some w) : lookupKV (enhChain d1) k = some w := by
  unfold enhChain
  exact lookupKV_setdefault_of_some
    (lookupKV_setdefault_of_some
      (lookupKV_setdefault_of_some (lookupKV_setdefault_of_some h _ _) _ _) _ _) _ _

theorem lookupKV_enhChain_ne (d1 : List (String × JValue)) {k : String}
    (h1 : k ≠ "name") (h2 : k ≠ "type") (h3 : k ≠ "parameters")
    (h4 : k ≠ "position") :
    lookupKV (enhChain d1) k = lookupKV d1 k := by
  unfold enhChain
  rw [lookupKV_setdefault_ne _ _ (Ne.symm h4), lookupKV_setdefault_ne _ _ (Ne.symm h3),
      lookupKV_setdefault_ne _ _ (Ne.symm h2), lookupKV_setdefault_ne _ _ (Ne.symm h1)]

theorem enhChain_name (d1 : List (String × JValue)) :
    lookupKV (enhChain d1) "name" = some (lookupD d1 "name" (defaultName d1)) := by
  unfold enhChain
  rw [lookupKV_setdefault_ne _ _ (by decide), lookupKV_setdefault_ne _ _ (by decide),
      lookupKV_setdefault_ne _ _ (by decide), lookupKV_setdefault_self]

theorem enhChain_present (d1 : List (String × JValue)) :
    (lookupKV (enhChain d1) "name").isSome ∧
    (lookupKV (enhChain d1) "type").isSome ∧
    (lookupKV (enhChain d1) "parameters").isSome ∧
    (lookupKV (enhChain d1) "position").isSome := by
  refine ⟨?_, ?_, ?_, ?_⟩
  · rw [enhChain_name]; rfl
  · unfold enhChain
    rw [lookupKV_setdefault_ne _ _ (by decide), lookupKV_setdefault_ne _ _ (by decide),
        lookupKV_setdefault_self]
    rfl
  · unfold enhChain
    rw [lookupKV_setdefault_ne _ _ (by decide), lookupKV_setdefault_self]
    rfl
  · unfold enhChain
    rw [lookupKV_setdefault_self]
    rfl

theorem enhanceNodeDict_eq (d1 : List (String × JValue)) :
    enhanceNodeDict d1 = some (.dict (enhOut d1)) := by
  unfold enhanceNodeDict enhOut
  rw [enhChain_name]

theorem enhanceNode_of_some {d0 : List (String × JValue)} {w : JValue}
    (hid : lookupKV d0 "id" = some w) (u : Nat → Nat) (ctr : Nat) :
    enhanceNode u ctr (.dict d0) = .ok (.dict (enhOut d0), ctr) := by
  simp only [enhanceNode, hid, enhanceNodeDict_eq]

theorem enhanceNode_of_none {d0 : List (String × JValue)}
    (hid : lookupKV d0 "id" = none) (u : Nat → Nat) (ctr : Nat) :
    enhanceNode u ctr (.dict d0) =
      .ok (.dict (enhOut (d0 ++ [("id", JValue.str (uuidStr (u ctr)))])), ctr + 1) := by
  simp only [enhanceNode, hid, enhanceNodeDict_eq]

theorem lookupKV_enhOut_ne (d1 : List (String × JValue)) {k : String}
    (h0 : k ≠ "metadata") (h1 : k ≠ "name") (h2 : k ≠ "type")
    (h3 : k ≠ "parameters") (h4 : k ≠ "position") :
    lookupKV (enhOut d1) k = lookupKV d1 k := by
  unfold enhOut
  rw [lookupKV_setKV_ne _ _ (Ne.symm h0), lookupKV_enhChain_ne _ h1 h2 h3 h4]

theorem enhOut_id (d1 : List (String × JValue)) :
    lookupKV (enhOut d1) "id" = lookupKV d1 "id" :=
  lookupKV_enhOut_ne d1 (by decide) (by decide) (by decide) (by decide) (by decide)

theorem enhOut_fixed (d1 : List (String × JValue)) : enhOut (enhOut d1) = enhOut d1 := by
  have hname : lookupKV (enhOut d1) "name" = some (lookupD d1 "name" (defaultName d1)) := by
    unfold enhOut
    rw [lookupKV_setKV_ne _ _ (by decide), enhChain_name]
  have htype : (lookupKV (enhOut d1) "type").isSome := by
    unfold enhOut
    rw [lookupKV_setKV_ne _ _ (by decide)]
    exact (enhChain_present d1).2.1
  have hpar : (lookupKV (enhOut d1) "parameters").isSome := by
    unfold enhOut
    rw [lookupKV_setKV_ne _ _ (by decide)]
    exact (enhChain_present d1).2.2.1
  have hpos : (lookupKV (enhOut d1) "position").isSome := by
    unfold enhOut
    rw [lookupKV_setKV_ne _ _ (by decide)]
    exact (enhChain_present d1).2.2.2
  obtain ⟨tv, htv⟩ := Option.isSome_iff_exists.mp htype
  obtain ⟨pv, hpv⟩ := Option.isSome_iff_exists.mp hpar
  obtain ⟨qv, hqv⟩ := Option.isSome_iff_exists.mp hpos
  have hchain : enhChain (enhOut d1) = enhOut d1 := by
    unfold enhChain
    rw [setdefaultKV_of_some hname, setdefaultKV_of_some htv,
        setdefaultKV_of_some hpv, setdefaultKV_of_some hqv]
  have hlookD : lookupD (enhOut d1) "name" (defaultName (enhOut d1)) =
      lookupD d1 "name" (defaultName d1) := by
    simp only [lookupD, hname]
  have hmeta : nodeMeta (enhOut d1) (lookupD d1 "name" (defaultName d1)) =
      nodeMeta (enhChain d1) (lookupD d1 "name" (defaultName d1)) := by
    unfold nodeMeta lookupD enhOut
    rw [lookupKV_setKV_ne _ _ (by decide), lookupKV_setKV_ne _ _ (by decide),
        lookupKV_setKV_ne _ _ (by decide), lookupKV_setKV_ne _ _ (by decide),
        lookupKV_setKV_ne _ _ (by decide)]
  calc enhOut (enhOut d1)
      = setKV (enhChain (enhOut d1)) "metadata"
          (nodeMeta (enhChain (enhOut d1))
            (lookupD (enhOut d1) "name" (defaultName (enhOut d1)))) := rfl
    _ = setKV (enhOut d1) "metadata"
          (nodeMeta (enhOut d1) (lookupD d1 "name" (defaultName d1))) := by
          rw [hchain, hlookD]
    _ = setKV (enhOut d1) "metadata"
          (nodeMeta (enhChain d1) (lookupD d1 "name" (defaultName d1))) := by
          rw [hmeta]
    _ = enhOut d1 := by
          refine setKV_eq_of_lookup ?_
          unfold enhOut
          exact lookupKV_setKV_self _ _ _

theorem enhanceNode_idem {u : Nat → Nat} {ctr : Nat} {v v1 : JValue} {c1 : Nat}
    (h : enhanceNode u ctr v = .ok (v1, c1)) :
    ∀ u2 c2, enhanceNode u2 c2 v1 = .ok (v1, c2) := by
  intro u2 c2
  cases v with
  | dict d0 =>
    cases hid : lookupKV d0 "id" with
    | some w =>
      rw [enhanceNode_of_some hid] at h
      have hv : v1 = .dict (enhOut d0) := by
        injection h with h2
        injection h2 with ha hb
        exact ha.symm
      subst hv
      have hid2 : lookupKV (enhOut d0) "id" = some w := by rw [enhOut_id, hid]
      rw [enhanceNode_of_some hid2, enhOut_fixed]
    | none =>
      rw [enhanceNode_of_none hid] at h
      have hv : v1 = .dict (enhOut (d0 ++ [("id", JValue.str (uuidStr (u ctr)))])) := by
        injection h with h2
        injection h2 with ha hb
        exact ha.symm
      subst hv
      have hid2 : lookupKV (enhOut (d0 ++ [("id", JValue.str (uuidStr (u ctr)))])) "id" =
          some (JValue.str (uuidStr (u ctr))) := by
        rw [enhOut_id, lookupKV_append, hid]
        simp [lookupKV]
      rw [enhanceNode_of_some hid2, enhOut_fixed]
  | null => simp [enhanceNode] at h
  | bool b => simp [enhanceNode] at h
  | int n => simp [enhanceNode] at h
  | str s => simp [enhanceNode] at h
  | list xs => simp [enhanceNode] at h

theorem enhanceNodeList_idem {u : Nat → Nat} :
    ∀ {xs : List JValue} {ctr : Nat} {ys : List JValue} {ctr2 : Nat},
      enhanceNodeList u ctr xs = .ok (ys, ctr2) →
      ∀ u2 c2, enhanceNodeList u2 c2 ys = .ok (ys, c2) := by
  intro xs
  induction xs with
  | nil =>
    intro ctr ys ctr2 h u2 c2
    have hys : ys = [] := by
      simp [enhanceNodeList] at h
      exact h.1
    subst hys
    simp [enhanceNodeList]
  | cons v rest ih =>
    intro ctr ys ctr2 h u2 c2
    unfold enhanceNodeList at h
    cases h1 : enhanceNode u ctr v with
    | error e =>
      rw [h1] at h
      exact absurd h (by simp)
    | ok p =>
      obtain ⟨v2, ctrA⟩ := p
      rw [h1] at h
      dsimp only at h
      cases h2 : enhanceNodeList u ctrA rest with
      | error e =>
        rw [h2] at h
        exact absurd h (by simp)
      | ok q =>
        obtain ⟨rest2, ctrB⟩ := q
        rw [h2] at h
        have hys : ys = v2 :: rest2 := by
          injection h with h3
          injection h3 with ha hb
          exact ha.symm
        subst hys
        unfold enhanceNodeList
        rw [enhanceNode_idem h1 u2 c2]
        dsimp only
        rw [ih h2 u2 c2]

theorem enhanceNodeList_ok {u : Nat → Nat} :
    ∀ (xs : List JValue) (ctr : Nat), (∀ v ∈ xs, ∃ d, v = JValue.dict d) →
      ∃ ys ctr2, enhanceNodeList u ctr xs = .ok (ys, ctr2) ∧
        ys.length = xs.length ∧
        ∀ v ∈ ys, ∃ d, v = JValue.dict d ∧ (lookupKV d "id").isSome := by
  intro xs
  induction xs with
  | nil =>
    intro ctr _
    exact ⟨[], ctr, rfl, rfl, by simp⟩
  | cons v rest ih =>
    intro ctr hall
    obtain ⟨d0, hd0⟩ := hall v (by simp)
    subst hd0
    cases hid : lookupKV d0 "id" with
    | some w =>
      obtain ⟨ys, ctr2, hok, hlen, hsh⟩ := ih ctr (fun x hx => hall x (by simp [hx]))
      refine ⟨.dict (enhOut d0) :: ys, ctr2, ?_, by simp [hlen], ?_⟩
      · unfold enhanceNodeList
        rw [enhanceNode_of_some hid]
        dsimp only
        rw [hok]
      · intro x hx
        rcases List.mem_cons.mp hx with hx | hx
        · refine ⟨enhOut d0, hx, ?_⟩
          rw [enhOut_id, hid]
          rfl
        · exact hsh x hx
    | none =>
      obtain ⟨ys, ctr2, hok, hlen, hsh⟩ :=
        ih (ctr + 1) (fun x hx => hall x (by simp [hx]))
      refine ⟨.dict (enhOut (d0 ++ [("id", JValue.str (uuidStr (u ctr)))])) :: ys,
        ctr2, ?_, by simp [hlen], ?_⟩
      · unfold enhanceNodeList
        rw [enhanceNode_of_none hid]
        dsimp only
        rw [hok]
      · intro x hx
        rcases List.mem_cons.mp hx with hx | hx
        · refine ⟨_, hx, ?_⟩
          rw [enhOut_id, lookupKV_append, hid]
          simp [lookupKV]
        · exact hsh x hx

/-- Provenance of node ids through the enhancement loop: every output
node's id is either an id present in the input node or a fresh uuid drawn
at a counter in `[ctr, ctr2)`; when the draws below `N` are injective, the
present ids are pairwise distinct, and every present id differs from every
draw below `N`, the output ids are pairwise distinct. -/
theorem enhanceNodeList_ids {u : Nat → Nat} {N : Nat}
    (hinj : ∀ a b : Nat, a < N → b < N → a ≠ b → uuidStr (u a) ≠ uuidStr (u b)) :
    ∀ (xs : List JValue) (ctr : Nat), ctr + xs.length ≤ N →
    (∀ v ∈ xs, ∃ d, v = JValue.dict d) →
    List.Pairwise idsDiffer xs →
    (∀ v ∈ xs, ∀ w, nodeId v = some w → ∀ a : Nat, a < N →
      w ≠ JValue.str (uuidStr (u a))) →
    ∃ ys ctr2, enhanceNodeList u ctr xs = .ok (ys, ctr2) ∧
      ctr ≤ ctr2 ∧ ctr2 ≤ ctr + xs.length ∧
      (∀ y ∈ ys, ∃ w, nodeId y = some w ∧
        ((∃ v ∈ xs, nodeId v = some w) ∨
         ∃ a, ctr ≤ a ∧ a < ctr2 ∧ w = JValue.str (uuidStr (u a)))) ∧
      ys.Pairwise (fun a b => nodeId a ≠ nodeId b) := by
  intro xs
  induction xs with
  | nil =>
    intro ctr _ _ _ _
    exact ⟨[], ctr, rfl, le_refl _, by simp, by simp, List.Pairwise.nil⟩
  | cons v rest ih =>
    intro ctr hN hall hpair hfresh
    simp only [List.length_cons] at hN
    obtain ⟨d0, hd0⟩ := hall v (by simp)
    subst hd0
    cases hid : lookupKV d0 "id" with
    | some w0 =>
      obtain ⟨ys, ctr2, hok, hle, hub, hprov, hpw⟩ :=
        ih ctr (by omega) (fun x hx => hall x (by simp [hx]))
          (List.Pairwise.of_cons hpair)
          (fun x hx => hfresh x (by simp [hx]))
      have hhid : nodeId (.dict (enhOut d0)) = some w0 := by
        show lookupKV (enhOut d0) "id" = some w0
        rw [enhOut_id, hid]
      refine ⟨.dict (enhOut d0) :: ys, ctr2, ?_, hle, ?_, ?_, ?_⟩
      · unfold enhanceNodeList
        rw [enhanceNode_of_some hid]
        dsimp only
        rw [hok]
      · simp only [List.length_cons]
        omega
      · intro y hy
        rcases List.mem_cons.mp hy with hy | hy
        · subst hy
          exact ⟨w0, hhid, .inl ⟨.dict d0, by simp, by
            show lookupKV d0 "id" = some w0
            exact hid⟩⟩
        · obtain ⟨w, hw, hcase⟩ := hprov y hy
          refine ⟨w, hw, ?_⟩
          rcases hcase with ⟨v2, hv2, hnv2⟩ | ⟨a, ha1, ha2, ha3⟩
          · exact .inl ⟨v2, by simp [hv2], hnv2⟩
          · exact .inr ⟨a, ha1, ha2, ha3⟩
      · refine List.Pairwise.cons ?_ hpw
        intro y hy
        obtain ⟨w, hw, hcase⟩ := hprov y hy
        rw [hhid, hw]
        intro heq
        injection heq with heq2
        rcases hcase with ⟨v2, hv2, hnv2⟩ | ⟨a, ha1, ha2, ha3⟩
        · have hrel := (List.pairwise_cons.mp hpair).1 v2 hv2
          exact hrel w0 w (by
            show lookupKV d0 "id" = some w0
            exact hid) hnv2 heq2
        · have hne := hfresh (.dict d0) (by simp) w0 (by
            show lookupKV d0 "id" = some w0
            exact hid) a (by omega)
          exact hne (heq2.trans ha3)
    | none =>
      obtain ⟨ys, ctr2, hok, hle, hub, hprov, hpw⟩ :=
        ih (ctr + 1) (by omega) (fun x hx => hall x (by simp [hx]))
          (List.Pairwise.of_cons hpair)
          (fun x hx => hfresh x (by simp [hx]))
      have hhid : nodeId
          (.dict (enhOut (d0 ++ [("id", JValue.str (uuidStr (u ctr)))]))) =
          some (JValue.str (uuidStr (u ctr))) := by
        show lookupKV (enhOut (d0 ++ [("id", JValue.str (uuidStr (u ctr)))])) "id" =
          some (JValue.str (uuidStr (u ctr)))
        rw [enhOut_id, lookupKV_append, hid]
        simp [lookupKV]
      refine ⟨.dict (enhOut (d0 ++ [("id", JValue.str (uuidStr (u ctr)))])) :: ys,
        ctr2, ?_, by omega, ?_, ?_, ?_⟩
      · unfold enhanceNodeList
        rw [enhanceNode_of_none hid]
        dsimp only
        rw [hok]
      · simp only [List.length_cons]
        omega
      · intro y hy
        rcases List.mem_cons.mp hy with hy | hy
        · subst hy
          exact ⟨_, hhid, .inr ⟨ctr, le_refl _, by omega, rfl⟩⟩
        · obtain ⟨w, hw, hcase⟩ := hprov y hy
          refine ⟨w, hw, ?_⟩
          rcases hcase with ⟨v2, hv2, hnv2⟩ | ⟨a, ha1, ha2, ha3⟩
          · exact .inl ⟨v2, by simp [hv2], hnv2⟩
          · exact .inr ⟨a, by omega, ha2, ha3⟩
      · refine List.Pairwise.cons ?_ hpw
        intro y hy
        obtain ⟨w, hw, hcase⟩ := hprov y hy
        rw [hhid, hw]
        intro heq
        injection heq with heq2
        rcases hcase with ⟨v2, hv2, hnv2⟩ | ⟨a, ha1, ha2, ha3⟩
        · have hne := hfresh v2 (by simp [hv2]) w hnv2 ctr (by omega)
          exact hne heq2.symm
        · have hne : uuidStr (u ctr) ≠ uuidStr (u a) :=
            hinj ctr a (by omega) (by omega) (by omega)
          rw [ha3] at heq2
          injection heq2 with heq3
          exact hne heq3

/-! ## Connection-enhancement lemmas -/

theorem pyGetItem_ok_inv {v : JValue} {k : String} {x : JValue}
    (h : pyGetItem v k = .ok x) : ∃ d, v = .dict d ∧ lookupKV d k = some x := by
  cases v with
  | dict d =>
    refine ⟨d, rfl, ?_⟩
    simp only [pyGetItem] at h
    cases hl : lookupKV d k with
    | some y =>
      rw [hl] at h
      injection h with h2
      rw [h2]
    | none =>
      rw [hl] at h
      exact absurd h (by simp)
  | null => exact absurd h (by simp [pyGetItem])
  | bool b => exact absurd h (by simp [pyGetItem])
  | int n => exact absurd h (by simp [pyGetItem])
  | str s => exact absurd h (by simp [pyGetItem])
  | list xs => exact absurd h (by simp [pyGetItem])

theorem enhanceTarget_idem {td : List (String × JValue)}
    (hd : lookupD td "description" (.str "") = .str "")
    (hc : lookupD td "condition" JValue.null = JValue.null) :
    enhanceTarget (targOut td) = .ok (targOut td) := by
  unfold lookupD at hd hc
  show Except.ok (targOut
      [("node", lookupD td "node" (.str "")),
       ("type", lookupD td "type" (.str "main")),
       ("index", lookupD td "index" (.int 0)),
       ("sourceOutput", lookupD td "sourceOutput" (.str "main")),
       ("targetInput", lookupD td "targetInput" (.str "main")),
       ("metadata", .dict
         [("description", lookupD td "description" (.str "")),
          ("condition", lookupD td "condition" JValue.null)])]) =
    Except.ok (targOut td)
  congr 1
  unfold targOut lookupD
  rw [hd, hc]
  simp [lookupKV]

theorem enhanceTargetList_idem :
    ∀ {ts ts2 : List JValue},
      enhanceTargetList ts = .ok ts2 →
      (∀ td, JValue.dict td ∈ ts →
        lookupD td "description" (JValue.str "") = JValue.str "" ∧
        lookupD td "condition" JValue.null = JValue.null) →
      enhanceTargetList ts2 = .ok ts2 := by
  intro ts
  induction ts with
  | nil =>
    intro ts2 h _
    have hts : ts2 = [] := by
      simp [enhanceTargetList] at h
      exact h
    subst hts
    rfl
  | cons t rest ih =>
    intro ts2 h hdef
    unfold enhanceTargetList at h
    cases t with
    | dict td =>
      simp only [enhanceTarget] at h
      cases h2 : enhanceTargetList rest with
      | error e =>
        rw [h2] at h
        exact absurd h (by simp)
      | ok rest2 =>
        rw [h2] at h
        have hts : ts2 = targOut td :: rest2 := by
          injection h with h3
          exact h3.symm
        subst hts
        unfold enhanceTargetList
        obtain ⟨hd, hc⟩ := hdef td (by simp)
        rw [enhanceTarget_idem hd hc,
            ih h2 (fun td2 htd2 => hdef td2 (by simp [htd2]))]
    | null => exact absurd h (by simp [enhanceTarget])
    | bool b => exact absurd h (by simp [enhanceTarget])
    | int n => exact absurd h (by simp [enhanceTarget])
    | str s => exact absurd h (by simp [enhanceTarget])
    | list xs => exact absurd h (by simp [enhanceTarget])

theorem enhanceConnItems_idem :
    ∀ {cm cm2 : List (String × JValue)},
      enhanceConnItems cm = .ok cm2 →
      (∀ kv ∈ cm, ∀ ts, pyIterE kv.2 = Except.ok ts → ∀ td, JValue.dict td ∈ ts →
        lookupD td "description" (JValue.str "") = JValue.str "" ∧
        lookupD td "condition" JValue.null = JValue.null) →
      enhanceConnItems cm2 = .ok cm2 := by
  intro cm
  induction cm with
  | nil =>
    intro cm2 h _
    have hcm : cm2 = [] := by
      simp [enhanceConnItems] at h
      exact h
    subst hcm
    rfl
  | cons kv rest ih =>
    intro cm2 h hdef
    obtain ⟨k, tv⟩ := kv
    unfold enhanceConnItems at h
    cases h1 : pyIterE tv with
    | error e =>
      rw [h1] at h
      exact absurd h (by simp)
    | ok ts =>
      rw [h1] at h
      dsimp only at h
      cases h2 : enhanceTargetList ts with
      | error e =>
        rw [h2] at h
        exact absurd h (by simp)
      | ok ts2 =>
        rw [h2] at h
        dsimp only at h
        cases h3 : enhanceConnItems rest with
        | error e =>
          rw [h3] at h
          exact absurd h (by simp)
        | ok rest2 =>
          rw [h3] at h
          have hcm : cm2 = (k, JValue.list ts2) :: rest2 := by
            injection h with h4
            exact h4.symm
          subst hcm
          unfold enhanceConnItems
          have hts2 : enhanceTargetList ts2 = .ok ts2 :=
            enhanceTargetList_idem h2
              (fun td htd => hdef (k, tv) (by simp) ts h1 td htd)
          rw [show pyIterE (JValue.list ts2) = Except.ok ts2 from rfl]
          dsimp only
          rw [hts2]
          dsimp only
          rw [ih h3 (fun kv2 hkv2 => hdef kv2 (by simp [hkv2]))]

/-! ## The two enhancement blocks as fixed points -/

theorem nodesStep_of_fixed {v : JValue} (hf : nodesFixed v) :
    ∀ u2 c2, nodesStep u2 c2 v = .ok (v, c2) := by
  intro u2 c2
  cases v with
  | dict d =>
    simp only [nodesFixed] at hf
    cases hn : lookupKV d "nodes" with
    | none => simp only [nodesStep, pyInE, hn, Option.isSome_none]
    | some nv =>
      rw [hn] at hf
      cases nv with
      | list xs =>
        dsimp only at hf
        simp only [nodesStep, pyInE, hn, Option.isSome_some, pyGetItem, hf u2 c2,
          setKV_eq_of_lookup hn]
      | str s =>
        dsimp only at hf
        simp only [nodesStep, pyInE, hn, Option.isSome_some, pyGetItem, hf, if_true]
      | dict kvs =>
        dsimp only at hf
        simp only [nodesStep, pyInE, hn, Option.isSome_some, pyGetItem, hf, if_true]
      | null => exact hf.elim
      | bool b => exact hf.elim
      | int n => exact hf.elim
  | str s =>
    simp only [nodesFixed] at hf
    simp only [nodesStep, pyInE, hf]
  | list xs =>
    simp only [nodesFixed] at hf
    simp only [nodesStep, pyInE, hf]
  | null => exact hf.elim
  | bool b => exact hf.elim
  | int n => exact hf.elim

theorem nodesStep_output {u : Nat → Nat} {ctr : Nat} {wd wdA : JValue} {cA : Nat}
    (h : nodesStep u ctr wd = .ok (wdA, cA)) : nodesFixed wdA := by
  cases wd with
  | dict d =>
    rw [show nodesStep u ctr (JValue.dict d) =
      (match (lookupKV d "nodes").isSome with
       | false => .ok (JValue.dict d, ctr)
       | true =>
         match lookupKV d "nodes" with
         | none => .error "KeyError"
         | some nv =>
           match nv with
           | JValue.list xs =>
             match enhanceNodeList u ctr xs with
             | .error e => .error e
             | .ok (xs2, ctr2) =>
               .ok (JValue.dict (setKV d "nodes" (JValue.list xs2)), ctr2)
           | JValue.str s =>
             if s.isEmpty then .ok (JValue.dict d, ctr)
             else .error "AttributeError: setdefault"
           | JValue.dict kvs =>
             if kvs.isEmpty then .ok (JValue.dict d, ctr)
             else .error "AttributeError: setdefault"
           | _ => .error "TypeError: object is not iterable" :
        Except String (JValue × Nat)) from by
        simp only [nodesStep, pyInE, pyGetItem]
        cases hn : lookupKV d "nodes" with
        | none => rfl
        | some nv => cases nv <;> rfl] at h
    cases hn : lookupKV d "nodes" with
    | none =>
      rw [hn] at h
      simp only [Option.isSome_none, Except.ok.injEq, Prod.mk.injEq] at h
      obtain ⟨ha, hb⟩ := h
      subst ha
      simp only [nodesFixed, hn]
    | some nv =>
      rw [hn] at h
      simp only [Option.isSome_some] at h
      cases nv with
      | list xs =>
        dsimp only at h
        cases hel : enhanceNodeList u ctr xs with
        | error e =>
          rw [hel] at h
          simp at h
        | ok p =>
          obtain ⟨xs2, cB⟩ := p
          rw [hel] at h
          simp only [Except.ok.injEq, Prod.mk.injEq] at h
          obtain ⟨ha, hb⟩ := h
          subst ha
          simp only [nodesFixed, lookupKV_setKV_self]
          exact enhanceNodeList_idem hel
      | str s =>
        dsimp only at h
        cases hse : s.isEmpty with
        | true =>
          rw [if_pos hse] at h
          simp only [Except.ok.injEq, Prod.mk.injEq] at h
          obtain ⟨ha, hb⟩ := h
          subst ha
          simp only [nodesFixed, hn]
          exact hse
        | false =>
          rw [if_neg (by simp [hse])] at h
          simp at h
      | dict kvs =>
        dsimp only at h
        cases hse : kvs.isEmpty with
        | true =>
          rw [if_pos hse] at h
          simp only [Except.ok.injEq, Prod.mk.injEq] at h
          obtain ⟨ha, hb⟩ := h
          subst ha
          simp only [nodesFixed, hn]
          exact hse
        | false =>
          rw [if_neg (by simp [hse])] at h
          simp at h
      | null => simp at h
      | bool b => simp at h
      | int n => simp at h
  | str s =>
    rw [show nodesStep u ctr (JValue.str s) =
      (match strContains s "nodes" with
       | false => .ok (JValue.str s, ctr)
       | true => .error "TypeError: string indices must be integers" :
        Except String (JValue × Nat)) from by
        simp only [nodesStep, pyInE, pyGetItem]
        cases strContains s "nodes" <;> rfl] at h
    cases hc : strContains s "nodes" with
    | false =>
      rw [hc] at h
      simp only [Except.ok.injEq, Prod.mk.injEq] at h
      obtain ⟨ha, hb⟩ := h
      subst ha
      exact hc
    | true =>
      rw [hc] at h
      simp at h
  | list xs =>
    rw [show nodesStep u ctr (JValue.list xs) =
      (match xs.any (fun x => isStrVal x "nodes") with
       | false => .ok (JValue.list xs, ctr)
       | true => .error "TypeError: list indices must be integers" :
        Except String (JValue × Nat)) from by
        simp only [nodesStep, pyInE, pyGetItem]
        cases xs.any (fun x => isStrVal x "nodes") <;> rfl] at h
    cases hc : xs.any (fun x => isStrVal x "nodes") with
    | false =>
      rw [hc] at h
      simp only [Except.ok.injEq, Prod.mk.injEq] at h
      obtain ⟨ha, hb⟩ := h
      subst ha
      exact hc
    | true =>
      rw [hc] at h
      simp at h
  | null => exact absurd h (by simp [nodesStep, pyInE])
  | bool b => exact absurd h (by simp [nodesStep, pyInE])
  | int n => exact absurd h (by simp [nodesStep, pyInE])

theorem nodesStep_inv {u : Nat → Nat} {ctr : Nat} {wd wdA : JValue} {cA : Nat}
    (h : nodesStep u ctr wd = .ok (wdA, cA)) :
    wdA = wd ∨ ∃ d xs xs2, wd = .dict d ∧ lookupKV d "nodes" = some (.list xs) ∧
      enhanceNodeList u ctr xs = .ok (xs2, cA) ∧
      wdA = .dict (setKV d "nodes" (JValue.list xs2)) := by
  unfold nodesStep at h
  cases hin : pyInE "nodes" wd with
  | error e =>
    rw [hin] at h
    simp at h
  | ok b =>
    rw [hin] at h
    cases b with
    | false =>
      dsimp only at h
      simp only [Except.ok.injEq, Prod.mk.injEq] at h
      exact Or.inl h.1.symm
    | true =>
      dsimp only at h
      cases hgi : pyGetItem wd "nodes" with
      | error e =>
        rw [hgi] at h
        simp at h
      | ok nv =>
        rw [hgi] at h
        dsimp only at h
        obtain ⟨dw, hwd, hlk⟩ := pyGetItem_ok_inv hgi
        cases nv with
        | list xs =>
          subst hwd
          dsimp only at h
          cases hel : enhanceNodeList u ctr xs with
          | error e =>
            rw [hel] at h
            simp at h
          | ok p =>
            obtain ⟨xs2, cB⟩ := p
            rw [hel] at h
            dsimp only at h
            simp only [Except.ok.injEq, Prod.mk.injEq] at h
            obtain ⟨ha, hb⟩ := h
            subst hb
            exact Or.inr ⟨dw, xs, xs2, rfl, hlk, hel, ha.symm⟩
        | str s =>
          dsimp only at h
          cases hse : s.isEmpty with
          | true =>
            rw [if_pos hse] at h
            simp only [Except.ok.injEq, Prod.mk.injEq] at h
            exact Or.inl h.1.symm
          | false =>
            rw [if_neg (by simp [hse])] at h
            simp at h
        | dict kvs =>
          dsimp only at h
          cases hse : kvs.isEmpty with
          | true =>
            rw [if_pos hse] at h
            simp only [Except.ok.injEq, Prod.mk.injEq] at h
            exact Or.inl h.1.symm
          | false =>
            rw [if_neg (by simp [hse])] at h
            simp at h
        | null => simp at h
        | bool b2 => simp at h
        | int n => simp at h

theorem connStep_inv {wd wd1 : JValue} (h : connStep wd = .ok wd1) :
    (wd1 = wd ∧ pyInE "connections" wd = .ok false) ∨
    ∃ d cm cm2, wd = .dict d ∧ lookupKV d "connections" = some (.dict cm) ∧
      enhanceConnItems cm = .ok cm2 ∧
      wd1 = .dict (setKV d "connections" (JValue.dict cm2)) := by
  unfold connStep at h
  cases hin : pyInE "connections" wd with
  | error e =>
    rw [hin] at h
    simp at h
  | ok b =>
    rw [hin] at h
    cases b with
    | false =>
      dsimp only at h
      simp only [Except.ok.injEq] at h
      exact Or.inl ⟨h.symm, rfl⟩
    | true =>
      dsimp only at h
      cases hgi : pyGetItem wd "connections" with
      | error e =>
        rw [hgi] at h
        simp at h
      | ok cv =>
        rw [hgi] at h
        dsimp only at h
        obtain ⟨dw, hwd, hlk⟩ := pyGetItem_ok_inv hgi
        cases cv with
        | dict cm =>
          subst hwd
          dsimp only at h
          cases hec : enhanceConnItems cm with
          | error e =>
            rw [hec] at h
            simp at h
          | ok cm2 =>
            rw [hec] at h
            dsimp only at h
            simp only [Except.ok.injEq] at h
            exact Or.inr ⟨dw, cm, cm2, rfl, hlk, hec, h.symm⟩
        | null => simp at h
        | bool b2 => simp at h
        | int n => simp at h
        | str s => simp at h
        | list xs => simp at h

theorem connStep_of_fixed {v : JValue} (hf : connFixed v) : connStep v = .ok v := by
  cases v with
  | dict d =>
    simp only [connFixed] at hf
    cases hn : lookupKV d "connections" with
    | none => simp only [connStep, pyInE, hn, Option.isSome_none]
    | some cv =>
      rw [hn] at hf
      cases cv with
      | dict cm =>
        dsimp only at hf
        simp only [connStep, pyInE, hn, Option.isSome_some, pyGetItem, hf,
          setKV_eq_of_lookup hn]
      | null => exact hf.elim
      | bool b => exact hf.elim
      | int n => exact hf.elim
      | str s => exact hf.elim
      | list xs => exact hf.elim
  | str s =>
    simp only [connFixed] at hf
    simp only [connStep, pyInE, hf]
  | list xs =>
    simp only [connFixed] at hf
    simp only [connStep, pyInE, hf]
  | null => exact hf.elim
  | bool b => exact hf.elim
  | int n => exact hf.elim

theorem connStep_output {wd wd1 : JValue} (h : connStep wd = .ok wd1)
    (ht : targDefaults wd) : connFixed wd1 := by
  rcases connStep_inv h with ⟨heq, hin⟩ | ⟨d, cm, cm2, hwd, hlk, hec, hout⟩
  · rw [heq]
    clear h heq
    cases wd with
    | dict d =>
      simp only [pyInE, Except.ok.injEq] at hin
      simp only [connFixed]
      cases hn : lookupKV d "connections" with
      | none => trivial
      | some cv => rw [hn] at hin; simp at hin
    | str s =>
      simp only [pyInE, Except.ok.injEq] at hin
      exact hin
    | list xs =>
      simp only [pyInE, Except.ok.injEq] at hin
      exact hin
    | null => simp [pyInE] at hin
    | bool b => simp [pyInE] at hin
    | int n => simp [pyInE] at hin
  · subst hwd
    subst hout
    simp only [connFixed, lookupKV_setKV_self]
    exact enhanceConnItems_idem hec (fun kv hkv ts hts td htd =>
      ht d cm rfl hlk kv hkv ts hts td htd)

theorem connStep_preserves_nodesFixed {wd wd1 : JValue} (h : connStep wd = .ok wd1)
    (hf : nodesFixed wd) : nodesFixed wd1 := by
  rcases connStep_inv h with ⟨heq, _⟩ | ⟨d, cm, cm2, hwd, hlk, hec, hout⟩
  · subst heq
    exact hf
  · subst hwd
    subst hout
    simp only [nodesFixed] at hf ⊢
    rw [lookupKV_setKV_ne _ _ (by decide)]
    exact hf

theorem nodesStep_preserves_targDefaults {u : Nat → Nat} {ctr : Nat}
    {wd wdA : JValue} {cA : Nat} (h : nodesStep u ctr wd = .ok (wdA, cA))
    (ht : targDefaults wd) : targDefaults wdA := by
  rcases nodesStep_inv h with heq | ⟨d, xs, xs2, hwd, hlk, hel, hout⟩
  · subst heq
    exact ht
  · subst hwd
    subst hout
    intro d2 cm hd2 hcm
    have hd2' : d2 = setKV d "nodes" (JValue.list xs2) := by
      injection hd2 with h3
      exact h3.symm
    subst hd2'
    rw [lookupKV_setKV_ne _ _ (by decide)] at hcm
    exact ht d cm rfl hcm

/-! ## Claim C2: idempotence of normalization -/

/-- C2 counterexample: normalization is NOT idempotent on every payload.  A
connection target carrying a top-level `description` has it folded into the
rebuilt entry's metadata on the first pass; the rebuilt entry no longer has
the top-level key, so a second pass resets the metadata description to the
default `""`, producing a different record. -/
theorem c2_counterexample :
    ∃ wd1 c1 wd2 c2,
      normalizeWd (fun _ => 0) 0
        (.dict [("connections",
          .dict [("a", .list [.dict [("description", .str "d")]])])]) =
        .ok (wd1, c1) ∧
      normalizeWd (fun _ => 0) 0 wd1 = .ok (wd2, c2) ∧
      wd2 ≠ wd1 := by
  refine ⟨_, _, _, _, rfl, rfl, ?_⟩
  intro hEq
  simp [setKV, targOut, lookupD, lookupKV] at hEq

/-- C2 (amended): normalization is idempotent on the node side
unconditionally, and on the connection side exactly when the original
payload's connection targets carry only default top-level
`description`/`condition` fields; under that proviso a second normalization
pass (with any uuid stream and counter) reproduces the normalized payload
unchanged. -/
theorem c2_normalize_idem {u : Nat → Nat} {ctr : Nat} {wd wd1 : JValue}
    {c1 : Nat} (h : normalizeWd u ctr wd = .ok (wd1, c1))
    (ht : targDefaults wd) :
    ∀ u2 c2, normalizeWd u2 c2 wd1 = .ok (wd1, c2) := by
  intro u2 c2
  unfold normalizeWd at h
  cases h1 : nodesStep u ctr wd with
  | error e =>
    rw [h1] at h
    simp at h
  | ok p =>
    obtain ⟨wdA, cA⟩ := p
    rw [h1] at h
    dsimp only at h
    cases h2 : connStep wdA with
    | error e =>
      rw [h2] at h
      simp at h
    | ok wdB =>
      rw [h2] at h
      dsimp only at h
      simp only [Except.ok.injEq, Prod.mk.injEq] at h
      obtain ⟨ha, hb⟩ := h
      subst ha
      have hfA : nodesFixed wdA := nodesStep_output h1
      have hfB : nodesFixed wdB := connStep_preserves_nodesFixed h2 hfA
      have htA : targDefaults wdA := nodesStep_preserves_targDefaults h1 ht
      have hcB : connFixed wdB := connStep_output h2 htA
      unfold normalizeWd
      rw [nodesStep_of_fixed hfB u2 c2]
      dsimp only
      rw [connStep_of_fixed hcB]

/-- C2 witness: the amended idempotence at a concrete already-normalized
payload. -/
theorem c2_witness :
    ∃ wd1 c1,
      normalizeWd (fun _ => 0) 0
        (.dict [("nodes", .list [.dict [("id", .str "a")]])]) = .ok (wd1, c1) ∧
      ∀ u2 c2, normalizeWd u2 c2 wd1 = .ok (wd1, c2) := by
  have ht : targDefaults
      (JValue.dict [("nodes", JValue.list [JValue.dict [("id", JValue.str "a")]])]) := by
    intro d cm hd hcm
    injection hd with hd2
    subst hd2
    simp [lookupKV] at hcm
  have h0 : normalizeWd (fun _ => 0) 0
      (JValue.dict [("nodes", JValue.list [JValue.dict [("id", JValue.str "a")]])]) =
      .ok (JValue.dict
        [("nodes", JValue.list [JValue.dict (enhOut [("id", JValue.str "a")])])], 0) := rfl
  exact ⟨_, _, h0, c2_normalize_idem h0 ht⟩

/-! ## Claims C4 and C8: the synthetic generator -/

/-- The generator's output at a numeric identifier, fully characterized. -/
theorem generate_synthetic_eq {wid : String} {n : Int} (r : Nat → Nat)
    (h : pyIntOfString wid = .ok n) :
    generate_synthetic_workflow wid r = .ok (JValue.dict
      [("id", .str wid),
       ("name", .str ("Workflow " ++ wid)),
       ("nodes", .list ((List.range (3 + r 0 % 4)).map (synthNode r n))),
       ("connections", .dict ((List.range (3 + r 0 % 4 - 1)).map synthConn)),
       ("active", .bool true),
       ("settings", .dict [("saveManualExecutions", .bool true),
                           ("callerPolicy", .str "any")])]) := by
  simp only [generate_synthetic_workflow, h]

/-- C4 (confirmed): on a numeric identifier the synthetic fallback builds a
node sequence of length in [3, 6] and a strictly linear connection chain:
exactly one entry per i in [0, count-2), keyed `node_i`, whose single target
is `node_(i+1)` with type `main` and index 0 - and no other connections. -/
theorem c4_fallback_linear_chain (wid : String) (n : Int) (r : Nat → Nat)
    (h : pyIntOfString wid = .ok n) :
    ∃ g nodesL connsL,
      generate_synthetic_workflow wid r = .ok g ∧
      pyGetItem g "nodes" = .ok (.list nodesL) ∧
      3 ≤ nodesL.length ∧ nodesL.length ≤ 6 ∧
      pyGetItem g "connections" = .ok (.dict connsL) ∧
      connsL.length = nodesL.length - 1 ∧
      ∀ i, i < nodesL.length - 1 →
        connsL.get? i = some ("node_" ++ toString i,
          JValue.list [JValue.dict
            [("node", JValue.str ("node_" ++ toString (i + 1))),
             ("type", JValue.str "main"),
             ("index", JValue.int 0)]]) := by
  have hmod : r 0 % 4 < 4 := Nat.mod_lt _ (by norm_num)
  refine ⟨_, (List.range (3 + r 0 % 4)).map (synthNode r n),
    (List.range (3 + r 0 % 4 - 1)).map synthConn,
    generate_synthetic_eq r h, rfl, ?_, ?_, rfl, ?_, ?_⟩
  · simp only [List.length_map, List.length_range]
    omega
  · simp only [List.length_map, List.length_range]
    omega
  · simp only [List.length_map, List.length_range]
  · intro i hi
    simp only [List.length_map, List.length_range] at hi
    rw [List.get?_map, List.get?_range (by omega)]
    rfl

/-- C8 (confirmed): for a numeric-string identifier the generator has no
failure mode, and every node's parameters carry the identifier reinterpreted
as an integer (`param2`) while its position is derived from the node index
and the identifier (`[i*200, int(id)*100]`). -/
theorem c8_generator_numeric_total (wid : String) (n : Int) (r : Nat → Nat)
    (h : pyIntOfString wid = .ok n) :
    ∃ g nodesL,
      generate_synthetic_workflow wid r = .ok g ∧
      pyGetItem g "nodes" = .ok (.list nodesL) ∧
      nodesL ≠ [] ∧
      ∀ i v, nodesL.get? i = some v → ∃ d, v = JValue.dict d ∧
        lookupKV d "parameters" = some (.dict
          [("param1", JValue.str ("value" ++ toString i)),
           ("param2", JValue.int n)]) ∧
        lookupKV d "position" =
          some (.list [JValue.int ((i : Int) * 200), JValue.int (n * 100)]) := by
  refine ⟨_, (List.range (3 + r 0 % 4)).map (synthNode r n),
    generate_synthetic_eq r h, rfl, ?_, ?_⟩
  · have hlen : ((List.range (3 + r 0 % 4)).map (synthNode r n)).length =
        3 + r 0 % 4 := by simp
    intro hnil
    rw [hnil] at hlen
    simp only [List.length_nil] at hlen
    omega
  · intro i v hv
    rw [List.get?_map] at hv
    have hlt : i < 3 + r 0 % 4 := by
      by_contra hge
      rw [List.get?_eq_none.mpr (by simp; omega)] at hv
      simp at hv
    rw [List.get?_range hlt] at hv
    simp only [Option.map_some'] at hv
    injection hv with hv2
    subst hv2
    exact ⟨_, rfl, rfl, rfl⟩

/-- C4 witness: the fallback generator at the numeric identifier `"5"`. -/
theorem c4_witness :
    pyIntOfString "5" = .ok 5 ∧
    ∃ g nodesL connsL,
      generate_synthetic_workflow "5" (fun _ => 0) = .ok g ∧
      pyGetItem g "nodes" = .ok (.list nodesL) ∧
      3 ≤ nodesL.length ∧ nodesL.length ≤ 6 ∧
      pyGetItem g "connections" = .ok (.dict connsL) ∧
      connsL.length = nodesL.length - 1 ∧
      ∀ i, i < nodesL.length - 1 →
        connsL.get? i = some ("node_" ++ toString i,
          JValue.list [JValue.dict
            [("node", JValue.str ("node_" ++ toString (i + 1))),
             ("type", JValue.str "main"),
             ("index", JValue.int 0)]]) :=
  ⟨rfl, c4_fallback_linear_chain "5" 5 (fun _ => 0) rfl⟩

/-- C8 witness: the generator is total at the numeric identifier `"9"`. -/
theorem c8_witness :
    pyIntOfString "9" = .ok 9 ∧
    ∃ g nodesL,
      generate_synthetic_workflow "9" (fun _ => 0) = .ok g ∧
      pyGetItem g "nodes" = .ok (.list nodesL) ∧
      nodesL ≠ [] ∧
      ∀ i v, nodesL.get? i = some v → ∃ d, v = JValue.dict d ∧
        lookupKV d "parameters" = some (.dict
          [("param1", JValue.str ("value" ++ toString i)),
           ("param2", JValue.int 9)]) ∧
        lookupKV d "position" =
          some (.list [JValue.int ((i : Int) * 200), JValue.int (9 * 100)]) :=
  ⟨rfl, c8_generator_numeric_total "9" 9 (fun _ => 0) rfl⟩

/-! ## Claim C6: node defaulting -/

theorem uuidStr_ne_empty (x : Nat) : uuidStr x ≠ "" := by
  intro h
  have h2 := congrArg String.data h
  simp [uuidStr] at h2

/-- C6 (confirmed): a node `{"type": "HTTP"}` with no other fields
normalizes to a node with a generated non-empty id, name `Node <id>`, type
`HTTP`, empty parameters, position `[0, 0]`, and a metadata sub-object with
description `""`, displayName equal to the name, version `"1.0"`, isCustom
false, and empty credentials. -/
theorem c6_node_defaulting (u : Nat → Nat) (ctr : Nat) :
    enhanceNode u ctr (.dict [("type", .str "HTTP")]) =
      .ok (.dict
        [("type", .str "HTTP"),
         ("id", .str (uuidStr (u ctr))),
         ("name", .str ("Node " ++ uuidStr (u ctr))),
         ("parameters", .dict []),
         ("position", .list [.int 0, .int 0]),
         ("metadata", .dict
           [("description", .str ""),
            ("displayName", .str ("Node " ++ uuidStr (u ctr))),
            ("version", .str "1.0"),
            ("isCustom", .bool false),
            ("credentials", .dict [])])], ctr + 1) ∧
    uuidStr (u ctr) ≠ "" :=
  ⟨rfl, uuidStr_ne_empty _⟩

/-! ## Output-record lemmas -/

theorem sumLens_ok_of_lists :
    ∀ (vs : List JValue), (∀ v ∈ vs, ∃ l, v = JValue.list l) →
      ∃ m, sumLens vs = .ok m := by
  intro vs
  induction vs with
  | nil => exact fun _ => ⟨0, rfl⟩
  | cons v rest ih =>
    intro hall
    obtain ⟨l, hl⟩ := hall v (by simp)
    subst hl
    obtain ⟨m, hm⟩ := ih (fun w hw => hall w (by simp [hw]))
    refine ⟨l.length + m, ?_⟩
    unfold sumLens
    rw [show pyLenE (JValue.list l) = Except.ok l.length from rfl]
    dsimp only
    rw [hm]

theorem sumLens_val :
    ∀ {vs : List JValue} {m : Nat}, sumLens vs = .ok m →
      (∀ v ∈ vs, ∃ l, v = JValue.list l) →
      m = (vs.map listLenOrZero).sum := by
  intro vs
  induction vs with
  | nil =>
    intro m h _
    simp [sumLens] at h
    simp [h.symm]
  | cons v rest ih =>
    intro m h hall
    obtain ⟨l, hl⟩ := hall v (by simp)
    subst hl
    unfold sumLens at h
    rw [show pyLenE (JValue.list l) = Except.ok l.length from rfl] at h
    dsimp only at h
    cases hm : sumLens rest with
    | error e =>
      rw [hm] at h
      simp at h
    | ok m2 =>
      rw [hm] at h
      simp only [Except.ok.injEq] at h
      subst h
      rw [ih hm (fun w hw => hall w (by simp [hw]))]
      simp [listLenOrZero]

theorem anyCustom_ok_of_dicts :
    ∀ (xs : List JValue), (∀ v ∈ xs, ∃ d, v = JValue.dict d) →
      ∃ b, anyCustom xs = .ok b := by
  intro xs
  induction xs with
  | nil => exact fun _ => ⟨false, rfl⟩
  | cons v rest ih =>
    intro hall
    obtain ⟨d, hd⟩ := hall v (by simp)
    subst hd
    obtain ⟨b, hb⟩ := ih (fun w hw => hall w (by simp [hw]))
    by_cases hp : pyTruthy (lookupD d "isCustom" (.bool false)) = true
    · exact ⟨true, by simp [anyCustom, hp]⟩
    · exact ⟨b, by simp [anyCustom, hp, hb]⟩

theorem anyCustom_iff :
    ∀ {xs : List JValue} {b : Bool}, anyCustom xs = .ok b →
      (b = true ↔ ∃ v ∈ xs, ∃ d, v = JValue.dict d ∧
        pyTruthy (lookupD d "isCustom" (.bool false)) = true) := by
  intro xs
  induction xs with
  | nil =>
    intro b h
    simp [anyCustom] at h
    subst h
    simp
  | cons v rest ih =>
    intro b h
    cases v with
    | dict d =>
      unfold anyCustom at h
      dsimp only at h
      by_cases hp : pyTruthy (lookupD d "isCustom" (.bool false)) = true
      · rw [if_pos hp] at h
        simp only [Except.ok.injEq] at h
        subst h
        simp only [List.mem_cons, true_iff]
        exact ⟨JValue.dict d, Or.inl rfl, d, rfl, hp⟩
      · rw [if_neg hp] at h
        rw [ih h]
        constructor
        · rintro ⟨w, hw, dd, hdd, hcust⟩
          exact ⟨w, by simp [hw], dd, hdd, hcust⟩
        · rintro ⟨w, hw, dd, hdd, hcust⟩
          rcases List.mem_cons.mp hw with hw | hw
          · subst hw
            injection hdd with hdd2
            subst hdd2
            exact absurd hcust hp
          · exact ⟨w, hw, dd, hdd, hcust⟩
    | null => simp [anyCustom] at h
    | bool b2 => simp [anyCustom] at h
    | int n => simp [anyCustom] at h
    | str s => simp [anyCustom] at h
    | list l => simp [anyCustom] at h

theorem buildResult_inv {wid title desc cat : String} {tags : List String}
    {now : String} {wd rec : JValue}
    (h : buildResult wid title desc cat tags now wd = .ok rec) :
    ∃ version created updated settings nodesV ncount cvals ccount nitems hasC,
      pyGetD wd "version" (.str "1.0") = .ok version ∧
      pyGetD wd "createdAt" (.str now) = .ok created ∧
      pyGetD wd "updatedAt" (.str now) = .ok updated ∧
      pyGetD wd "settings" (.dict []) = .ok settings ∧
      pyGetD wd "nodes" (.list []) = .ok nodesV ∧
      pyLenE nodesV = .ok ncount ∧
      (∃ connsV, pyGetD wd "connections" (.dict []) = .ok connsV ∧
        pyValuesE connsV = .ok cvals) ∧
      sumLens cvals = .ok ccount ∧
      pyIterE nodesV = .ok nitems ∧
      anyCustom nitems = .ok hasC ∧
      rec = .dict
        [("id", .str wid), ("name", .str title), ("description", .str desc),
         ("url", .str ("https://n8n.io/workflows/" ++ wid)), ("workflow", wd),
         ("metadata", .dict
           [("url", .str ("https://n8n.io/workflows/" ++ wid)),
            ("title", .str title), ("description", .str desc),
            ("category", .str cat), ("tags", .list (tags.map JValue.str)),
            ("version", version), ("created", created), ("updated", updated),
            ("settings", settings),
            ("stats", .dict
              [("nodeCount", .int (ncount : Int)),
               ("connectionCount", .int (ccount : Int)),
               ("hasCustomNodes", .bool hasC)]),
            ("timestamp", .str now)])] := by
  simp only [buildResult] at h
  cases h1 : pyGetD wd "version" (.str "1.0") with
  | error e => rw [h1] at h; simp at h
  | ok version =>
  rw [h1] at h
  dsimp only at h
  cases h2 : pyGetD wd "createdAt" (.str now) with
  | error e => rw [h2] at h; simp at h
  | ok created =>
  rw [h2] at h
  dsimp only at h
  cases h3 : pyGetD wd "updatedAt" (.str now) with
  | error e => rw [h3] at h; simp at h
  | ok updated =>
  rw [h3] at h
  dsimp only at h
  cases h4 : pyGetD wd "settings" (.dict []) with
  | error e => rw [h4] at h; simp at h
  | ok settings =>
  rw [h4] at h
  dsimp only at h
  cases h5 : pyGetD wd "nodes" (.list []) with
  | error e => rw [h5] at h; simp at h
  | ok nodesV =>
  rw [h5] at h
  dsimp only at h
  cases h6 : pyLenE nodesV with
  | error e => rw [h6] at h; simp at h
  | ok ncount =>
  rw [h6] at h
  dsimp only at h
  cases h7 : pyGetD wd "connections" (.dict []) with
  | error e => rw [h7] at h; simp at h
  | ok connsV =>
  rw [h7] at h
  dsimp only at h
  cases h8 : pyValuesE connsV with
  | error e => rw [h8] at h; simp at h
  | ok cvals =>
  rw [h8] at h
  dsimp only at h
  cases h9 : sumLens cvals with
  | error e => rw [h9] at h; simp at h
  | ok ccount =>
  rw [h9] at h
  dsimp only at h
  cases h10 : pyIterE nodesV with
  | error e => rw [h10] at h; simp at h
  | ok nitems =>
  rw [h10] at h
  dsimp only at h
  cases h11 : anyCustom nitems with
  | error e => rw [h11] at h; simp at h
  | ok hasC =>
  rw [h11] at h
  dsimp only at h
  simp only [Except.ok.injEq] at h
  exact ⟨version, created, updated, settings, nodesV, ncount, cvals, ccount,
    nitems, hasC, rfl, rfl, rfl, rfl, rfl, h6, ⟨connsV, rfl, h8⟩, h9, h10, h11,
    h.symm⟩

theorem buildResult_ok (wid title desc cat : String) (tags : List String)
    (now : String) {d : List (String × JValue)}
    (hn : ∀ nv, lookupKV d "nodes" = some nv →
      ∃ xs, nv = JValue.list xs ∧ ∀ v ∈ xs, ∃ dd, v = JValue.dict dd)
    (hc : ∀ cv, lookupKV d "connections" = some cv →
      ∃ cm, cv = JValue.dict cm ∧ ∀ kv ∈ cm, ∃ l, kv.2 = JValue.list l) :
    ∃ rec, buildResult wid title desc cat tags now (.dict d) = .ok rec := by
  obtain ⟨xs, hxs, hxsd⟩ : ∃ xs, lookupD d "nodes" (.list []) = JValue.list xs ∧
      ∀ v ∈ xs, ∃ dd, v = JValue.dict dd := by
    cases hl : lookupKV d "nodes" with
    | none => exact ⟨[], by simp [lookupD, hl], by simp⟩
    | some nv =>
      obtain ⟨xs, hnv, hdd⟩ := hn nv hl
      exact ⟨xs, by simp [lookupD, hl, hnv], hdd⟩
  obtain ⟨cm, hcm, hcml⟩ : ∃ cm, lookupD d "connections" (.dict []) = JValue.dict cm ∧
      ∀ kv ∈ cm, ∃ l, kv.2 = JValue.list l := by
    cases hl : lookupKV d "connections" with
    | none => exact ⟨[], by simp [lookupD, hl], by simp⟩
    | some cv =>
      obtain ⟨cm, hcv, hll⟩ := hc cv hl
      exact ⟨cm, by simp [lookupD, hl, hcv], hll⟩
  obtain ⟨m, hm⟩ : ∃ m, sumLens (cm.map Prod.snd) = .ok m := by
    refine sumLens_ok_of_lists _ ?_
    intro v hv
    obtain ⟨kv, hkv, hkveq⟩ := List.mem_map.mp hv
    obtain ⟨l, hl⟩ := hcml kv hkv
    exact ⟨l, by rw [← hkveq, hl]⟩
  obtain ⟨b, hb⟩ : ∃ b, anyCustom xs = .ok b := anyCustom_ok_of_dicts xs hxsd
  cases hres : buildResult wid title desc cat tags now (.dict d) with
  | ok rec => exact ⟨rec, rfl⟩
  | error e =>
    simp only [buildResult, pyGetD, hxs, hcm, pyLenE, pyValuesE, pyIterE, hm, hb]
      at hres
    simp at hres

/-! ## Pipeline plumbing lemmas -/

theorem pyGetD_ok_inv {v : JValue} {k : String} {dflt x : JValue}
    (h : pyGetD v k dflt = .ok x) : ∃ d, v = .dict d ∧ x = lookupD d k dflt := by
  cases v with
  | dict d =>
    refine ⟨d, rfl, ?_⟩
    simp only [pyGetD, Except.ok.injEq] at h
    exact h.symm
  | null => exact absurd h (by simp [pyGetD])
  | bool b => exact absurd h (by simp [pyGetD])
  | int n => exact absurd h (by simp [pyGetD])
  | str s => exact absurd h (by simp [pyGetD])
  | list xs => exact absurd h (by simp [pyGetD])

theorem nodesStep_of_list {u : Nat → Nat} {ctr : Nat}
    {d : List (String × JValue)} {xs ys : List JValue} {c2 : Nat}
    (hl : lookupKV d "nodes" = some (JValue.list xs))
    (hel : enhanceNodeList u ctr xs = .ok (ys, c2)) :
    nodesStep u ctr (.dict d) = .ok (.dict (setKV d "nodes" (JValue.list ys)), c2) := by
  simp only [nodesStep, pyInE, hl, Option.isSome_some, pyGetItem, hel]

theorem connStep_of_dict {d cm : List (String × JValue)}
    {cm2 : List (String × JValue)}
    (hl : lookupKV d "connections" = some (JValue.dict cm))
    (hec : enhanceConnItems cm = .ok cm2) :
    connStep (.dict d) = .ok (.dict (setKV d "connections" (JValue.dict cm2))) := by
  simp only [connStep, pyInE, hl, Option.isSome_some, pyGetItem, hec]

theorem enhanceTargetList_ok :
    ∀ (ts : List JValue), (∀ t ∈ ts, ∃ td, t = JValue.dict td) →
      ∃ ts2, enhanceTargetList ts = .ok ts2 := by
  intro ts
  induction ts with
  | nil => exact fun _ => ⟨[], rfl⟩
  | cons t rest ih =>
    intro hall
    obtain ⟨td, htd⟩ := hall t (by simp)
    subst htd
    obtain ⟨ts2, hts2⟩ := ih (fun w hw => hall w (by simp [hw]))
    refine ⟨targOut td :: ts2, ?_⟩
    unfold enhanceTargetList
    simp only [enhanceTarget, hts2]

theorem enhanceConnItems_ok :
    ∀ (cm : List (String × JValue)),
      (∀ kv ∈ cm, ∃ ts, pyIterE kv.2 = Except.ok ts ∧
        ∀ t ∈ ts, ∃ td, t = JValue.dict td) →
      ∃ cm2, enhanceConnItems cm = .ok cm2 ∧
        ∀ kv ∈ cm2, ∃ l, kv.2 = JValue.list l := by
  intro cm
  induction cm with
  | nil => exact fun _ => ⟨[], rfl, by simp⟩
  | cons kv rest ih =>
    intro hall
    obtain ⟨k, tv⟩ := kv
    obtain ⟨ts, hts, htsd⟩ := hall (k, tv) (by simp)
    obtain ⟨ts2, hts2⟩ := enhanceTargetList_ok ts htsd
    obtain ⟨cm2, hcm2, hcm2l⟩ := ih (fun w hw => hall w (by simp [hw]))
    refine ⟨(k, JValue.list ts2) :: cm2, ?_, ?_⟩
    · unfold enhanceConnItems
      rw [hts]
      dsimp only
      rw [hts2]
      dsimp only
      rw [hcm2]
    · intro w hw
      rcases List.mem_cons.mp hw with hw | hw
      · subst hw
        exact ⟨ts2, rfl⟩
      · exact hcm2l w hw

theorem scrape_ok_some_inv {wid : String} {page : Page} {now : String}
    {u r : Nat → Nat} {rec : JValue}
    (h : scrape_workflow wid page now u r = .ok (some rec)) :
    extractBody wid page now u r = .ok rec := by
  unfold scrape_workflow at h
  cases hb : extractBody wid page now u r with
  | ok v =>
    rw [hb] at h
    simp only [Except.ok.injEq, Option.some.injEq] at h
    rw [h]
  | error e =>
    rw [hb] at h
    simp at h

theorem extractBody_ok_inv {wid : String} {page : Page} {now : String}
    {u r : Nat → Nat} {rec : JValue}
    (h : extractBody wid page now u r = .ok rec) :
    ∃ wd1 wd2 c2,
      obtainPayload wid (computeTitle wid page.titleText) r
        (selectWorkflowData page.scripts) = .ok wd1 ∧
      normalizeWd u 0 wd1 = .ok (wd2, c2) ∧
      buildResult wid (computeTitle wid page.titleText)
        (page.metaDescription.getD "") (page.category.getD "")
        page.articleTags now wd2 = .ok rec := by
  simp only [extractBody] at h
  cases h1 : obtainPayload wid (computeTitle wid page.titleText) r
      (selectWorkflowData page.scripts) with
  | error e =>
    rw [h1] at h
    simp at h
  | ok wd1 =>
    rw [h1] at h
    dsimp only at h
    cases h2 : normalizeWd u 0 wd1 with
    | error e =>
      rw [h2] at h
      simp at h
    | ok p =>
      obtain ⟨wd2, c2⟩ := p
      rw [h2] at h
      dsimp only at h
      exact ⟨wd1, wd2, c2, rfl, h2, h⟩

theorem fallback_extract_ok {wid : String} {n : Int} (page : Page) (now : String)
    (u r : Nat → Nat)
    (hsel : selectWorkflowData page.scripts = none)
    (h : pyIntOfString wid = .ok n) :
    ∃ rec, extractBody wid page now u r = .ok rec := by
  have hg := generate_synthetic_eq r h
  obtain ⟨ys, c2, hel, hylen, hysd⟩ :=
    @enhanceNodeList_ok u
      ((List.range (3 + r 0 % 4)).map (synthNode r n)) 0
      (by
        intro v hv
        obtain ⟨i, hi, hveq⟩ := List.mem_map.mp hv
        exact ⟨_, hveq.symm⟩)
  obtain ⟨cm2, hec, hcm2l⟩ :=
    enhanceConnItems_ok ((List.range (3 + r 0 % 4 - 1)).map synthConn)
      (by
        intro kv hkv
        obtain ⟨i, hi, hkveq⟩ := List.mem_map.mp hkv
        subst hkveq
        refine ⟨_, rfl, ?_⟩
        intro t ht
        simp only [List.mem_singleton] at ht
        subst ht
        exact ⟨_, rfl⟩)
  obtain ⟨L, hL, hLn, hLc⟩ :
      ∃ L, synthPayload wid (computeTitle wid page.titleText) r = .ok (.dict L) ∧
        lookupKV L "nodes" =
          some (JValue.list ((List.range (3 + r 0 % 4)).map (synthNode r n))) ∧
        lookupKV L "connections" =
          some (JValue.dict ((List.range (3 + r 0 % 4 - 1)).map synthConn)) := by
    simp only [synthPayload, hg]
    refine ⟨_, rfl, ?_, ?_⟩ <;> rfl
  have hnodes := nodesStep_of_list hLn hel
  have hLc2 : lookupKV (setKV L "nodes" (JValue.list ys)) "connections" =
      some (JValue.dict ((List.range (3 + r 0 % 4 - 1)).map synthConn)) := by
    rw [lookupKV_setKV_ne _ _ (by decide), hLc]
  have hconn := connStep_of_dict hLc2 hec
  have hnorm : normalizeWd u 0 (.dict L) =
      .ok (.dict (setKV (setKV L "nodes" (JValue.list ys)) "connections"
        (JValue.dict cm2)), c2) := by
    unfold normalizeWd
    rw [hnodes]
    dsimp only
    rw [hconn]
  obtain ⟨rec, hb⟩ := @buildResult_ok wid (computeTitle wid page.titleText)
      (page.metaDescription.getD "") (page.category.getD "") page.articleTags now
      (setKV (setKV L "nodes" (JValue.list ys)) "connections" (JValue.dict cm2))
      (by
        intro nv hnv
        rw [lookupKV_setKV_ne _ _ (by decide), lookupKV_setKV_self] at hnv
        injection hnv with hnv2
        exact ⟨ys, hnv2.symm, fun v hv => (hysd v hv).imp (fun dd hdd => hdd.1)⟩)
      (by
        intro cv hcv
        rw [lookupKV_setKV_self] at hcv
        injection hcv with hcv2
        exact ⟨cm2, hcv2.symm, hcm2l⟩)
  refine ⟨rec, ?_⟩
  simp only [extractBody, hsel, obtainPayload]
  rw [hL]
  dsimp only
  rw [hnorm]
  dsimp only
  exact hb

/-! ## Claim C1: the pipeline never raises -/

/-- C1 (confirmed): for every identifier string and every page content the
extraction entry point never propagates an exception to its caller - the
result is always `.ok`, carrying `none` exactly when an exception escaped to
the outer handler; internal parsing failures inside the strategies are
`Option`-valued (caught locally) by construction of `selectWorkflowData`. -/
theorem c1_never_raises (wid : String) (page : Page) (now : String)
    (u r : Nat → Nat) :
    ∃ res : Option JValue, scrape_workflow wid page now u r = .ok res := by
  unfold scrape_workflow
  cases extractBody wid page now u r with
  | ok v => exact ⟨some v, rfl⟩
  | error e => exact ⟨none, rfl⟩

/-! ## Claim C10: the title fallback ignores non-matching title text -/

/-- C10 (confirmed): when the page has a title tag whose text does not match
`(.+?)\s*\|\s*n8n`, the record's `name` and `metadata.title` are the
synthetic default `Workflow <identifier>` - the actual title text is
ignored. -/
theorem c10_title_fallback {wid : String} {page : Page} {now : String}
    {u r : Nat → Nat} {t : String} {rec : JValue}
    (ht : page.titleText = some t)
    (hm : titleSearch t.data = none)
    (hr : scrape_workflow wid page now u r = .ok (some rec)) :
    pyGetItem rec "name" = .ok (.str ("Workflow " ++ wid)) ∧
    ∃ md, pyGetItem rec "metadata" = .ok md ∧
      pyGetItem md "title" = .ok (.str ("Workflow " ++ wid)) := by
  obtain ⟨wd1, wd2, c2, h1, h2, h3⟩ := extractBody_ok_inv (scrape_ok_some_inv hr)
  have htitle : computeTitle wid page.titleText = "Workflow " ++ wid := by
    rw [ht]
    simp only [computeTitle, hm]
  rw [htitle] at h3
  obtain ⟨version, created, updated, settings, nodesV, ncount, cvals, ccount,
    nitems, hasC, hv, hcr, hup, hse, hnd, hlen, hcvv, hsum, hit, hany, hrec⟩ :=
    buildResult_inv h3
  subst hrec
  exact ⟨rfl, _, rfl, rfl⟩

/-- C10 witness: a concrete page whose title text has no ` | n8n` suffix. -/
theorem c10_witness :
    ∃ rec,
      scrape_workflow "5" plainTitlePage "T" (fun _ => 0) (fun _ => 0) =
        .ok (some rec) ∧
      pyGetItem rec "name" = .ok (.str "Workflow 5") ∧
      ∃ md, pyGetItem rec "metadata" = .ok md ∧
        pyGetItem md "title" = .ok (.str "Workflow 5") := by
  obtain ⟨rec, hrec⟩ :
      ∃ rec, scrape_workflow "5" plainTitlePage "T" (fun _ => 0) (fun _ => 0) =
        .ok (some rec) := ⟨_, rfl⟩
  exact ⟨rec, hrec, c10_title_fallback
    (show plainTitlePage.titleText = some "Plain Title" from rfl) rfl hrec⟩

/-! ## Claim C7: malformed-JSON resilience -/

/-- C7 counterexample: the claim's "still returning a complete record" fails
for a non-numeric identifier - the malformed blob is survived without
raising, but the synthetic fallback's `int(workflow_id)` raises, is caught
by the outer handler, and the result is absent rather than a record. -/
theorem c7_counterexample :
    scrape_workflow "abc" badBlobPage "T" (fun _ => 0) (fun _ => 0) =
      .ok none := rfl

/-- C7 (amended): a script block containing `window.__WORKFLOW__ = {invalid
json` never makes the pipeline raise: extraction always returns `.ok`, the
malformed blob never matches strategy 1 (the strategy yields nothing from
that script), and when the page consists of that script alone a complete
record is still returned via the synthetic fallback provided the identifier
is numeric-string-shaped. -/
theorem c7_malformed_resilience (wid now : String) (u r : Nat → Nat) :
    (∀ page : Page, ∃ res, scrape_workflow wid page now u r = .ok res) ∧
    (∀ ta : Option String,
      attempt1 ⟨ta, some "window.__WORKFLOW__ = \x7binvalid json"⟩ = none) ∧
    (∀ n : Int, pyIntOfString wid = .ok n →
      ∃ rec, scrape_workflow wid badBlobPage now u r = .ok (some rec)) := by
  refine ⟨?_, ?_, ?_⟩
  · intro page
    unfold scrape_workflow
    cases extractBody wid page now u r with
    | ok v => exact ⟨some v, rfl⟩
    | error e => exact ⟨none, rfl⟩
  · intro ta
    rfl
  · intro n hn
    obtain ⟨rec, hrec⟩ := fallback_extract_ok badBlobPage now u r rfl hn
    refine ⟨rec, ?_⟩
    unfold scrape_workflow
    rw [hrec]

/-- C7 witness: the amended statement at the identifier `"7"`. -/
theorem c7_witness :
    pyIntOfString "7" = .ok 7 ∧
    ∃ rec, scrape_workflow "7" badBlobPage "T" (fun _ => 0) (fun _ => 0) =
      .ok (some rec) :=
  ⟨rfl, (c7_malformed_resilience "7" "T" (fun _ => 0) (fun _ => 0)).2.2 7 rfl⟩

/-! ## Claim C5: strategy priority -/

/-- C5 (amended): whenever some script's strategy-1 attempt parses a payload
`v` that is truthy (a non-empty object), the cascade returns exactly `v` -
strategies 2 and 3 are not consulted - and the pipeline keeps `v` as the
workflow payload.  The truthiness proviso is forced: `if not workflow_data`
treats an empty parsed object as "no usable object". -/
theorem c5_strategy_priority {scripts : List ScriptTag} {v : JValue}
    (h1 : scripts.findSome? attempt1 = some v) (h2 : pyTruthy v = true) :
    selectWorkflowData scripts = some v ∧
    ∀ wid title r, obtainPayload wid title r (selectWorkflowData scripts) = .ok v := by
  have hsel : selectWorkflowData scripts = some v := by
    simp only [selectWorkflowData, h1, truthyOpt, h2, if_true]
  refine ⟨hsel, ?_⟩
  intro wid title r
  rw [hsel]
  simp only [obtainPayload, h2, if_true]

/-- C5 witness: a page with a valid non-empty `window.__WORKFLOW__` blob and
a valid linked-data block; the blob wins. -/
theorem c5_witness :
    blobAndLdScripts.findSome? attempt1 =
      some (JValue.dict [("nodes", JValue.list [])]) ∧
    pyTruthy (JValue.dict [("nodes", JValue.list [])]) = true ∧
    selectWorkflowData blobAndLdScripts =
      some (JValue.dict [("nodes", JValue.list [])]) :=
  ⟨rfl, rfl, (c5_strategy_priority
    (show blobAndLdScripts.findSome? attempt1 =
      some (JValue.dict [("nodes", JValue.list [])]) from rfl) rfl).1⟩

/-- C5 counterexample: a page whose `window.__WORKFLOW__` blob is the valid
but EMPTY object `{}`.  Strategy 1 parses it, yet the falsy value fails the
`if not workflow_data` check and the linked-data block's payload wins, so
the result does not match blob A's content. -/
theorem c5_counterexample :
    attempt1 ⟨none, some "window.__WORKFLOW__ = \x7b\x7d;"⟩ =
      some (JValue.dict []) ∧
    selectWorkflowData emptyBlobAndLdScripts =
      some (JValue.dict [("x", JValue.int 1)]) ∧
    JValue.dict [("x", JValue.int 1)] ≠ JValue.dict [] := by
  refine ⟨rfl, rfl, ?_⟩
  simp

/-! ## Claim C3: derived statistics -/

/-- C3 (amended): for every payload the record builder accepts, the derived
stats satisfy: `nodeCount` is the length of the workflow's `nodes` list (0
when absent), `connectionCount` is the sum of the per-source list lengths
across the connection map (0 when absent), and `hasCustomNodes` is true iff
some node's `isCustom` value is PYTHON-TRUTHY (the code uses `any` on the
raw value, not a boolean test - see the counterexample). -/
theorem c3_stats_derived {wid title desc cat : String} {tags : List String}
    {now : String} {wd rec : JValue}
    (h : buildResult wid title desc cat tags now wd = .ok rec) :
    ∃ d md st, wd = JValue.dict d ∧
      pyGetItem rec "workflow" = .ok wd ∧
      pyGetItem rec "metadata" = .ok md ∧
      pyGetItem md "stats" = .ok st ∧
      (∀ xs, lookupKV d "nodes" = some (JValue.list xs) →
        pyGetItem st "nodeCount" = .ok (.int (xs.length : Int))) ∧
      (lookupKV d "nodes" = none → pyGetItem st "nodeCount" = .ok (.int 0)) ∧
      (∀ cm, lookupKV d "connections" = some (JValue.dict cm) →
        (∀ kv ∈ cm, ∃ l, kv.2 = JValue.list l) →
        pyGetItem st "connectionCount" =
          .ok (.int (((cm.map Prod.snd).map listLenOrZero).sum : Int))) ∧
      (lookupKV d "connections" = none →
        pyGetItem st "connectionCount" = .ok (.int 0)) ∧
      ∃ b, pyGetItem st "hasCustomNodes" = .ok (.bool b) ∧
        (∀ xs, lookupKV d "nodes" = some (JValue.list xs) →
          (b = true ↔ ∃ v ∈ xs, ∃ nd, v = JValue.dict nd ∧
            pyTruthy (lookupD nd "isCustom" (.bool false)) = true)) := by
  obtain ⟨version, created, updated, settings, nodesV, ncount, cvals, ccount,
    nitems, hasC, hv, hcr, hup, hse, hnd, hlen, hcvv, hsum, hit, hany, hrec⟩ :=
    buildResult_inv h
  obtain ⟨connsV, hcv, hvals⟩ := hcvv
  obtain ⟨d, hwd, _⟩ := pyGetD_ok_inv hv
  subst hwd
  subst hrec
  have hx : nodesV = lookupD d "nodes" (JValue.list []) := by
    obtain ⟨d2, hd2, hx2⟩ := pyGetD_ok_inv hnd
    injection hd2 with h2
    subst h2
    exact hx2
  have hy : connsV = lookupD d "connections" (JValue.dict []) := by
    obtain ⟨d3, hd3, hy2⟩ := pyGetD_ok_inv hcv
    injection hd3 with h3
    subst h3
    exact hy2
  refine ⟨d, _, _, rfl, rfl, rfl, rfl, ?_, ?_, ?_, ?_, hasC, rfl, ?_⟩
  · intro xs hxs
    have hnv : nodesV = JValue.list xs := by
      rw [hx]
      simp [lookupD, hxs]
    rw [hnv] at hlen
    simp only [pyLenE, Except.ok.injEq] at hlen
    subst hlen
    rfl
  · intro hxs
    have hnv : nodesV = JValue.list [] := by
      rw [hx]
      simp [lookupD, hxs]
    rw [hnv] at hlen
    simp only [pyLenE, Except.ok.injEq] at hlen
    subst hlen
    rfl
  · intro cm hcm hll
    have hcv2 : connsV = JValue.dict cm := by
      rw [hy]
      simp [lookupD, hcm]
    rw [hcv2] at hvals
    simp only [pyValuesE, Except.ok.injEq] at hvals
    subst hvals
    have hcc := sumLens_val hsum (by
      intro v hv2
      obtain ⟨kv, hkv, hkveq⟩ := List.mem_map.mp hv2
      obtain ⟨l, hl⟩ := hll kv hkv
      exact ⟨l, by rw [← hkveq, hl]⟩)
    subst hcc
    rfl
  · intro hcm
    have hcv2 : connsV = JValue.dict [] := by
      rw [hy]
      simp [lookupD, hcm]
    rw [hcv2] at hvals
    simp only [pyValuesE, Except.ok.injEq] at hvals
    subst hvals
    have hcc := sumLens_val hsum (by intro v hv2; simp at hv2)
    subst hcc
    rfl
  · intro xs hxs
    have hnv : nodesV = JValue.list xs := by
      rw [hx]
      simp [lookupD, hxs]
    rw [hnv] at hit
    simp only [pyIterE, Except.ok.injEq] at hit
    subst hit
    exact anyCustom_iff hany

/-- C3 counterexample: `hasCustomNodes` follows Python truthiness, not the
boolean value of the `isCustom` flag.  A node whose `isCustom` is the
non-empty string `"no"` - not the boolean true - still yields
`hasCustomNodes = true` in the returned record. -/
theorem c3_counterexample :
    ∃ rec md st wf nd,
      scrape_workflow "3" customFlagPage "T" (fun _ => 0) (fun _ => 0) =
        .ok (some rec) ∧
      pyGetItem rec "metadata" = .ok md ∧
      pyGetItem md "stats" = .ok st ∧
      pyGetItem st "hasCustomNodes" = .ok (.bool true) ∧
      pyGetItem rec "workflow" = .ok wf ∧
      pyGetItem wf "nodes" = .ok (.list [JValue.dict nd]) ∧
      lookupKV nd "isCustom" = some (.str "no") ∧
      JValue.str "no" ≠ JValue.bool true := by
  refine ⟨_, _, _, _, _, rfl, rfl, rfl, rfl, rfl, rfl, rfl, by simp⟩

/-- C3 witness: the amended statement at a concrete payload. -/
theorem c3_witness :
    ∃ rec, buildResult "1" "t" "" "" [] "T"
        (.dict [("nodes", JValue.list []), ("connections", JValue.dict [])]) =
      .ok rec ∧
    ∃ d md st,
      (JValue.dict [("nodes", JValue.list []), ("connections", JValue.dict [])] :
        JValue) = JValue.dict d ∧
      pyGetItem rec "workflow" =
        .ok (.dict [("nodes", JValue.list []), ("connections", JValue.dict [])]) ∧
      pyGetItem rec "metadata" = .ok md ∧
      pyGetItem md "stats" = .ok st ∧
      (∀ xs, lookupKV d "nodes" = some (JValue.list xs) →
        pyGetItem st "nodeCount" = .ok (.int (xs.length : Int))) ∧
      (lookupKV d "nodes" = none → pyGetItem st "nodeCount" = .ok (.int 0)) ∧
      (∀ cm, lookupKV d "connections" = some (JValue.dict cm) →
        (∀ kv ∈ cm, ∃ l, kv.2 = JValue.list l) →
        pyGetItem st "connectionCount" =
          .ok (.int (((cm.map Prod.snd).map listLenOrZero).sum : Int))) ∧
      (lookupKV d "connections" = none →
        pyGetItem st "connectionCount" = .ok (.int 0)) ∧
      ∃ b, pyGetItem st "hasCustomNodes" = .ok (.bool b) ∧
        (∀ xs, lookupKV d "nodes" = some (JValue.list xs) →
          (b = true ↔ ∃ v ∈ xs, ∃ nd, v = JValue.dict nd ∧
            pyTruthy (lookupD nd "isCustom" (.bool false)) = true)) := by
  obtain ⟨rec, hrec⟩ :
      ∃ rec, buildResult "1" "t" "" "" [] "T"
          (.dict [("nodes", JValue.list []), ("connections", JValue.dict [])]) =
        .ok rec := ⟨_, rfl⟩
  exact ⟨rec, hrec, c3_stats_derived hrec⟩

/-! ## Claim C9: node id uniqueness -/

/-- C9 counterexample: ids already present in the input are kept verbatim
and never deduplicated - a payload whose two nodes both carry the id `"a"`
normalizes to two nodes that still both carry the id `"a"`. -/
theorem c9_counterexample :
    ∃ d v1 v2,
      normalizeWd (fun _ => 0) 0
        (.dict [("nodes",
          .list [.dict [("id", .str "a")], .dict [("id", .str "a")]])]) =
        .ok (JValue.dict d, 0) ∧
      lookupKV d "nodes" = some (.list [v1, v2]) ∧
      nodeId v1 = some (.str "a") ∧
      nodeId v2 = some (.str "a") := by
  refine ⟨_, _, _, rfl, rfl, ?_, ?_⟩ <;> rfl

/-- C9 (amended): the enhancement loop yields nodes whose ids are all
present and pairwise distinct PROVIDED the input nodes are dicts whose
present ids are pairwise distinct, the uuid draws consumed by the run are
pairwise distinct, and no present id collides with any such draw.  Without
the distinctness provisos the claim fails: present ids pass through
untouched (see the counterexample). -/
theorem c9_id_uniqueness {u : Nat → Nat} {ctr : Nat} {xs : List JValue}
    (hdict : ∀ v ∈ xs, ∃ d, v = JValue.dict d)
    (hpair : List.Pairwise idsDiffer xs)
    (hinj : ∀ a b : Nat, a < ctr + xs.length → b < ctr + xs.length → a ≠ b →
      uuidStr (u a) ≠ uuidStr (u b))
    (hfresh : ∀ v ∈ xs, ∀ w, nodeId v = some w → ∀ a : Nat,
      a < ctr + xs.length → w ≠ JValue.str (uuidStr (u a))) :
    ∃ ys ctr2, enhanceNodeList u ctr xs = .ok (ys, ctr2) ∧
      (∀ y ∈ ys, (nodeId y).isSome) ∧
      ys.Pairwise (fun a b => nodeId a ≠ nodeId b) := by
  obtain ⟨ys, ctr2, h1, _, _, hprov, hpw⟩ :=
    enhanceNodeList_ids hinj xs ctr (le_refl _) hdict hpair hfresh
  refine ⟨ys, ctr2, h1, ?_, hpw⟩
  intro y hy
  obtain ⟨w, hw, _⟩ := hprov y hy
  rw [hw]
  rfl

/-- C9 witness: one node with the id `"a"` and one node with no id, under
the identity entropy stream; the hypotheses hold concretely and the two
output ids differ. -/
theorem c9_witness :
    ∃ ys ctr2,
      enhanceNodeList (fun n => n) 0
        [.dict [("id", .str "a")], .dict []] = .ok (ys, ctr2) ∧
      (∀ y ∈ ys, (nodeId y).isSome) ∧
      ys.Pairwise (fun a b => nodeId a ≠ nodeId b) := by
  refine c9_id_uniqueness ?_ ?_ ?_ ?_
  · intro v hv
    simp only [List.mem_cons, List.not_mem_nil, or_false] at hv
    rcases hv with h | h <;> exact ⟨_, h⟩
  · refine List.Pairwise.cons ?_ (List.Pairwise.cons ?_ List.Pairwise.nil)
    · intro b hb
      simp only [List.mem_cons, List.not_mem_nil, or_false] at hb
      subst hb
      intro va vb h1 h2
      simp [nodeId, lookupKV] at h2
    · intro b hb
      simp at hb
  · intro a b ha hb hne
    simp only [List.length_cons, List.length_nil] at ha hb
    interval_cases a <;> interval_cases b <;>
      first
      | exact absurd rfl hne
      | decide
  · intro v hv w hw a ha
    simp only [List.mem_cons, List.not_mem_nil, or_false] at hv
    simp only [List.length_cons, List.length_nil] at ha
    rcases hv with h | h <;> subst h
    · have hw2 : w = JValue.str "a" := by
        simp only [nodeId, lookupKV] at hw
        simp at hw
        exact hw.symm
      subst hw2
      intro heq
      injection heq with heq2
      revert heq2
      interval_cases a <;> decide
    · simp [nodeId, lookupKV] at hw

end GalleryScraper
